import Mathlib

/-!
ch_constructor: the CSR graph, the reader/writer drivers and `main`.

A shallow embedding of `src/graph.h`, `src/file_formats_helper.h` and
`src/ch_constructor.cpp`, followed by the properties proved about it.

Conventions of the embedding.

* `std::vector<T>` is a `List T`.  Indexing a vector out of range is undefined
  behaviour in the source; here an out-of-range write leaves the list unchanged
  and an out-of-range read yields `0`.  Theorems about the offset arrays and the
  index mapper carry the hypotheses that keep the accesses they rest on in range.
* `uint`, `NodeID` and `EdgeID` are all rendered as `Nat`; the conversions, increments,
  sums and differences the source performs on them are reduced modulo `UINT_MOD`.
  A counting loop `for (i = 0; i < n; ++i)` runs over `List.range n`: its counter
  stays below the bound and never wraps.
* `std::sort` is library code.  It is represented by its contract (`StdSort`):
  some function returning a permutation of its input that is sorted with respect
  to the comparator.  Nothing is assumed about the order of elements the
  comparator does not distinguish.  Two implementations are given: insertion sort,
  and the introsort of GNU libstdc++ transcribed from its headers.
-/

namespace chc

/-! ## Data model -/

/-- Modelled from the spec: `uint`, `NodeID` and `EdgeID` are declared in defs.h, which
is not among the sources; the spec describes them as 32-bit indices.  This is the
modulus of their arithmetic. -/
def UINT_MOD : Nat := 4294967296

/-- Modelled from the spec: the direction tag `EdgeType` of defs.h. -/
inductive EdgeType where
  | OUT
  | IN
deriving DecidableEq, Repr

/-- Modelled from the spec: the edge record of nodes_and_edges.h,
`{id, src, tgt, weight}`.  `Graph` only ever touches these members of its
`EdgeT` parameter. -/
structure Edge where
  id : Nat
  src : Nat
  tgt : Nat
  weight : Nat
deriving DecidableEq, Repr

/-- Modelled from the spec: the comparator `EdgeSortSrc` (`OutEdgeSort`) of
nodes_and_edges.h, the strict lexicographic order on `(src, tgt, weight)`. -/
def EdgeSortSrc (edge1 edge2 : Edge) : Bool :=
  decide (edge1.src < edge2.src) ||
    (decide (edge1.src = edge2.src) &&
      (decide (edge1.tgt < edge2.tgt) ||
        (decide (edge1.tgt = edge2.tgt) && decide (edge1.weight < edge2.weight))))

/-- Modelled from the spec: the comparator `EdgeSortTgt` (`InEdgeSort`) of
nodes_and_edges.h, the strict lexicographic order on `(tgt, src, weight)`. -/
def EdgeSortTgt (edge1 edge2 : Edge) : Bool :=
  decide (edge1.tgt < edge2.tgt) ||
    (decide (edge1.tgt = edge2.tgt) &&
      (decide (edge1.src < edge2.src) ||
        (decide (edge1.src = edge2.src) && decide (edge1.weight < edge2.weight))))

/-- Modelled from the spec: the record `GraphInData<NodeT, EdgeT>` of nodes_and_edges.h,
the `(nodes[], edges[])` a reader produces and `Graph::init` consumes. -/
structure GraphInData (NodeT EdgeT : Type) where
  nodes : List NodeT
  edges : List EdgeT

/-! ## `std::sort` by contract -/

/-- The `Compare` requirement of `std::sort`: a strict weak ordering. -/
structure StrictWeakOrder (comp : Edge → Edge → Bool) : Prop where
  asymm : ∀ a b, comp a b = true → comp b a = false
  negTrans : ∀ a b c, comp a b = false → comp b c = false → comp a c = false

/-- The predicate `std::is_sorted(first, last, comp)`: no element is `comp`-less than an earlier one. -/
def is_sorted (comp : Edge → Edge → Bool) (l : List Edge) : Prop :=
  l.Pairwise (fun a b => comp b a = false)

instance (comp : Edge → Edge → Bool) (l : List Edge) : Decidable (is_sorted comp l) := by
  unfold is_sorted
  infer_instance

/-- An implementation of `std::sort(first, last, comp)` on a vector of edges: it
rearranges the range (`perm`) so that it is sorted with respect to `comp` whenever
`comp` is a strict weak ordering (`sorted`).  The relative order of equivalent
elements is left open, as in the C++ standard. -/
structure StdSort where
  sort : (Edge → Edge → Bool) → List Edge → List Edge
  perm : ∀ comp l, (sort comp l).Perm l
  sorted : ∀ comp l, StrictWeakOrder comp → is_sorted comp (sort comp l)

/-! ## `Graph` (graph.h) -/

/-- The data members of `Graph<NodeT, EdgeT>`. -/
structure Graph (NodeT : Type) where
  _nodes : List NodeT
  _out_offsets : List Nat
  _in_offsets : List Nat
  _out_edges : List Edge
  _in_edges : List Edge
  _id_to_index : List Nat
  _next_id : Nat

/-- A default-constructed `Graph`: empty vectors and `_next_id = 0`. -/
def Graph.empty (NodeT : Type) : Graph NodeT :=
  { _nodes := [], _out_offsets := [], _in_offsets := [], _out_edges := [], _in_edges := [],
    _id_to_index := [], _next_id := 0 }

/-- The call `std::vector<uint>::assign(n, 0)`. -/
def assignZero (n : Nat) : List Nat := List.replicate n 0

/-- The call `std::vector<uint>::resize(n)`: keep the first `n` entries, pad with zeros. -/
def resize (v : List Nat) (n : Nat) : List Nat :=
  v.take n ++ List.replicate (n - v.length) 0

/-- The statement `v[i]++` on a `std::vector<uint>`. -/
def incrAt (v : List Nat) (i : Nat) : List Nat :=
  v.set i ((v.getD i 0 + 1) % UINT_MOD)

namespace Graph

variable {NodeT : Type}

/-- The method `Graph::sortInEdges`. -/
def sortInEdges (S : StdSort) (g : Graph NodeT) : Graph NodeT :=
  { g with _in_edges := S.sort EdgeSortTgt g._in_edges }

/-- The method `Graph::sortOutEdges`. -/
def sortOutEdges (S : StdSort) (g : Graph NodeT) : Graph NodeT :=
  { g with _out_edges := S.sort EdgeSortSrc g._out_edges }

/-- The counting loop of `initOffsets` (graph.h:198-201): one pass over `_out_edges`
bumping `_out_offsets[edge.src]` and `_in_offsets[edge.tgt]`. -/
def countLoop (edges : List Edge) (offs : List Nat × List Nat) : List Nat × List Nat :=
  edges.foldl (fun st edge => (incrAt st.1 edge.src, incrAt st.2 edge.tgt)) offs

/-- The local state of the prefix-sum loop of `initOffsets`. -/
structure SumState where
  out_offsets : List Nat
  in_offsets : List Nat
  out_sum : Nat
  in_sum : Nat

/-- One iteration of the prefix-sum loop (graph.h:206-210). -/
def sumStep (st : SumState) (i : Nat) : SumState :=
  let old_out_sum := st.out_sum
  let old_in_sum := st.in_sum
  { out_sum := (st.out_sum + st.out_offsets.getD i 0) % UINT_MOD
    in_sum := (st.in_sum + st.in_offsets.getD i 0) % UINT_MOD
    out_offsets := st.out_offsets.set i old_out_sum
    in_offsets := st.in_offsets.set i old_in_sum }

/-- The state of `initOffsets` when it reaches its two closing assertions
(graph.h:192-211). -/
def offsetsLoops (g : Graph NodeT) : SumState :=
  let nr_of_nodes := g._nodes.length % UINT_MOD
  let cnt := countLoop g._out_edges
    (assignZero ((nr_of_nodes + 1) % UINT_MOD), assignZero ((nr_of_nodes + 1) % UINT_MOD))
  (List.range nr_of_nodes).foldl sumStep
    { out_offsets := cnt.1, in_offsets := cnt.2, out_sum := 0, in_sum := 0 }

/-- The two closing assertions of `initOffsets` (graph.h:212-213), comparing the sums
with the sizes of the two edge vectors.  The source spells the sizes
`_out_edges.indices.size()` and `_in_edges.indices.size()`; the members are plain
`std::vector`s, so the sizes meant are those of the vectors themselves. -/
def offsetsAssertions (g : Graph NodeT) : Bool :=
  decide ((offsetsLoops g).out_sum = g._out_edges.length) &&
    decide ((offsetsLoops g).in_sum = g._in_edges.length)

/-- The method `Graph::initOffsets`. -/
def initOffsets (g : Graph NodeT) : Graph NodeT :=
  let nr_of_nodes := g._nodes.length % UINT_MOD
  let st := offsetsLoops g
  { g with
    _out_offsets := st.out_offsets.set nr_of_nodes st.out_sum
    _in_offsets := st.in_offsets.set nr_of_nodes st.in_sum }

/-- One iteration of the loop of `initIdToIndex` (graph.h:225):
`_id_to_index[_out_edges[i].id] = i`. -/
def idStep (out_edges : List Edge) (id_to_index : List Nat) (i : Nat) : List Nat :=
  match out_edges[i]? with
  | some e => id_to_index.set e.id i
  | none => id_to_index

/-- The loop of `initIdToIndex` (graph.h:224-226). -/
def idLoop (out_edges : List Edge) (size : Nat) (id_to_index : List Nat) : List Nat :=
  (List.range size).foldl (idStep out_edges) id_to_index

/-- The method `Graph::initIdToIndex`. -/
def initIdToIndex (g : Graph NodeT) : Graph NodeT :=
  { g with
    _id_to_index :=
      idLoop g._out_edges (g._out_edges.length % UINT_MOD) (resize g._id_to_index g._next_id) }

/-- The method `Graph::update`. -/
def update (S : StdSort) (g : Graph NodeT) : Graph NodeT :=
  initIdToIndex (initOffsets (sortInEdges S (sortOutEdges S g)))

/-- The method `Graph::init`: take over nodes and edges, copy the edges into `_in_edges`, set
`_next_id` and run `update`.  The closing `printInfo()` only prints and leaves the state
unchanged. -/
def init (S : StdSort) (g : Graph NodeT) (data : GraphInData NodeT Edge) : Graph NodeT :=
  let g1 := { g with _nodes := data.nodes, _out_edges := data.edges }
  let g2 := { g1 with _in_edges := g1._out_edges }
  let g3 := { g2 with _next_id := g2._out_edges.length % UINT_MOD }
  update S g3

/-- The method `Graph::getNrOfNodes`. -/
def getNrOfNodes (g : Graph NodeT) : Nat := g._nodes.length % UINT_MOD

/-- The method `Graph::getNrOfEdges()`. -/
def getNrOfEdges (g : Graph NodeT) : Nat := g._out_edges.length % UINT_MOD

/-- The method `Graph::getEdge`; `none` stands for an access outside `_out_edges`. -/
def getEdge (g : Graph NodeT) (edge_id : Nat) : Option Edge :=
  g._out_edges[g._id_to_index.getD edge_id 0]?

/-- Subtraction of two `uint` values. -/
def uintSub (a b : Nat) : Nat := (a + UINT_MOD - b) % UINT_MOD

/-- The method `Graph::getNrOfEdges(node_id, type)`. -/
def getNrOfEdgesOf (g : Graph NodeT) (node_id : Nat) (type : EdgeType) : Nat :=
  if type = EdgeType.IN then
    uintSub (g._in_offsets.getD ((node_id + 1) % UINT_MOD) 0) (g._in_offsets.getD node_id 0)
  else
    uintSub (g._out_offsets.getD ((node_id + 1) % UINT_MOD) 0) (g._out_offsets.getD node_id 0)

/-- The method `Graph::getNrOfEdges(node_id)`. -/
def getNrOfEdgesAt (g : Graph NodeT) (node_id : Nat) : Nat :=
  (getNrOfEdgesOf g node_id EdgeType.OUT + getNrOfEdgesOf g node_id EdgeType.IN) % UINT_MOD

/-- The iterator range `[begin + first, begin + last)` of a vector. -/
def range (v : List Edge) (first last : Nat) : List Edge :=
  (v.drop first).take (last - first)

/-- The method `Graph::nodeEdges`. -/
def nodeEdges (g : Graph NodeT) (node_id : Nat) (type : EdgeType) : List Edge :=
  if EdgeType.OUT = type then
    range g._out_edges (g._out_offsets.getD node_id 0)
      (g._out_offsets.getD ((node_id + 1) % UINT_MOD) 0)
  else
    range g._in_edges (g._in_offsets.getD node_id 0)
      (g._in_offsets.getD ((node_id + 1) % UINT_MOD) 0)

end Graph

/-! ## Implementations of the `std::sort` contract -/

/-- The order `comp` induces for insertion: `a` may stand before `b`. -/
def notAfter (comp : Edge → Edge → Bool) (a b : Edge) : Prop := comp b a = false

instance (comp : Edge → Edge → Bool) : DecidableRel (notAfter comp) := fun a b => by
  unfold notAfter
  infer_instance

/-- Insertion sort: a stable implementation of the contract. -/
def insertionStdSort : StdSort where
  sort comp l := List.insertionSort (notAfter comp) l
  perm comp l := List.perm_insertionSort (notAfter comp) l
  sorted comp l h := by
    haveI : IsTotal Edge (notAfter comp) := ⟨fun a b => by
      unfold notAfter
      cases hba : comp b a
      · exact Or.inl rfl
      · exact Or.inr (h.asymm b a hba)⟩
    haveI : IsTrans Edge (notAfter comp) := ⟨fun a b c hab hbc => h.negTrans c b a hbc hab⟩
    exact List.sorted_insertionSort (notAfter comp) l

/-! ## The `std::sort` of libstdc++ (bits/stl_algo.h, bits/stl_heap.h)

The introsort of GNU libstdc++ (GCC 12), transcribed function by function.  Iterators
are positions in the vector.  Dereferencing outside the vector is undefined behaviour
in the source and yields a dummy edge here.  Every loop carries a bound on its number
of rounds, the size of the range it works on, which makes the functions total. -/

namespace libstdcxx

/-- The element `*(begin + i)`. -/
def deref (v : List Edge) (i : Nat) : Edge :=
  v.getD i { id := 0, src := 0, tgt := 0, weight := 0 }

/-- The call `std::iter_swap(begin + a, begin + b)`. -/
def iter_swap (v : List Edge) (a b : Nat) : List Edge :=
  (v.set a (deref v b)).set b (deref v a)

/-- The constant `_S_threshold`. -/
def S_threshold : Nat := 16

/-- The function `std::__lg`: the binary logarithm rounded down. -/
def lg : Nat → Nat → Nat
  | 0, _ => 0
  | fuel + 1, n => if 2 ≤ n then lg fuel (n / 2) + 1 else 0

/-- The function `__move_median_to_first`. -/
def move_median_to_first (comp : Edge → Edge → Bool) (v : List Edge) (result a b c : Nat) :
    List Edge :=
  if comp (deref v a) (deref v b) then
    if comp (deref v b) (deref v c) then iter_swap v result b
    else if comp (deref v a) (deref v c) then iter_swap v result c
    else iter_swap v result a
  else if comp (deref v a) (deref v c) then iter_swap v result a
  else if comp (deref v b) (deref v c) then iter_swap v result c
  else iter_swap v result b

/-- The loop `while (comp(first, pivot)) ++first;` of `__unguarded_partition`. -/
def scan_up (comp : Edge → Edge → Bool) (v : List Edge) (pivot : Nat) : Nat → Nat → Nat
  | 0, first => first
  | fuel + 1, first =>
    if comp (deref v first) (deref v pivot) then scan_up comp v pivot fuel (first + 1)
    else first

/-- The loop `while (comp(pivot, last)) --last;` of `__unguarded_partition`. -/
def scan_down (comp : Edge → Edge → Bool) (v : List Edge) (pivot : Nat) : Nat → Nat
  | 0 => 0
  | last + 1 =>
    if comp (deref v pivot) (deref v (last + 1)) then scan_down comp v pivot last
    else last + 1

/-- The function `__unguarded_partition`: the vector and the returned cut. -/
def unguarded_partition (comp : Edge → Edge → Bool) (pivot : Nat) :
    Nat → List Edge → Nat → Nat → List Edge × Nat
  | 0, v, first, _ => (v, first)
  | fuel + 1, v, first, last =>
    let first1 := scan_up comp v pivot v.length first
    let last1 := scan_down comp v pivot (last - 1)
    if first1 < last1 then
      unguarded_partition comp pivot fuel (iter_swap v first1 last1) (first1 + 1) last1
    else (v, first1)

/-- The function `__unguarded_partition_pivot`. -/
def unguarded_partition_pivot (comp : Edge → Edge → Bool) (v : List Edge) (first last : Nat) :
    List Edge × Nat :=
  let mid := first + (last - first) / 2
  let v1 := move_median_to_first comp v first (first + 1) mid (last - 1)
  unguarded_partition comp first v1.length v1 (first + 1) last

/-- The function `__push_heap`. -/
def push_heap (comp : Edge → Edge → Bool) (first topIndex : Nat) (value : Edge) :
    Nat → List Edge → Nat → List Edge
  | 0, v, holeIndex => v.set (first + holeIndex) value
  | fuel + 1, v, holeIndex =>
    let parent := (holeIndex - 1) / 2
    if topIndex < holeIndex ∧ comp (deref v (first + parent)) value = true then
      push_heap comp first topIndex value fuel
        (v.set (first + holeIndex) (deref v (first + parent))) parent
    else v.set (first + holeIndex) value

/-- The `while` loop of `__adjust_heap`: the vector, `holeIndex` and `secondChild`. -/
def adjust_heap_loop (comp : Edge → Edge → Bool) (first len : Nat) :
    Nat → List Edge → Nat → Nat → List Edge × Nat × Nat
  | 0, v, holeIndex, secondChild => (v, holeIndex, secondChild)
  | fuel + 1, v, holeIndex, secondChild =>
    if secondChild < (len - 1) / 2 then
      let sc := 2 * (secondChild + 1)
      let sc1 := if comp (deref v (first + sc)) (deref v (first + (sc - 1))) then sc - 1 else sc
      adjust_heap_loop comp first len fuel (v.set (first + holeIndex) (deref v (first + sc1)))
        sc1 sc1
    else (v, holeIndex, secondChild)

/-- The function `__adjust_heap`. -/
def adjust_heap (comp : Edge → Edge → Bool) (v : List Edge) (first holeIndex len : Nat)
    (value : Edge) : List Edge :=
  let topIndex := holeIndex
  let st := adjust_heap_loop comp first len len v holeIndex holeIndex
  let st2 : List Edge × Nat :=
    if len % 2 = 0 ∧ st.2.2 = (len - 2) / 2 then
      let sc := 2 * (st.2.2 + 1)
      (st.1.set (first + st.2.1) (deref st.1 (first + (sc - 1))), sc - 1)
    else (st.1, st.2.1)
  push_heap comp first topIndex value (st2.2 + 1) st2.1 st2.2

/-- The function `__pop_heap`. -/
def pop_heap (comp : Edge → Edge → Bool) (v : List Edge) (first last result : Nat) : List Edge :=
  let value := deref v result
  adjust_heap comp (v.set result (deref v first)) first 0 (last - first) value

/-- The function `__make_heap`. -/
def make_heap (comp : Edge → Edge → Bool) (v : List Edge) (first last : Nat) : List Edge :=
  if last - first < 2 then v
  else
    let len := last - first
    ((List.range ((len - 2) / 2 + 1)).reverse).foldl
      (fun w parent => adjust_heap comp w first parent len (deref w (first + parent))) v

/-- The function `__sort_heap`; the first argument is `last - first`. -/
def sort_heap (comp : Edge → Edge → Bool) (first : Nat) : Nat → List Edge → List Edge
  | 0, v => v
  | n + 1, v =>
    if 1 < n + 1 then sort_heap comp first n (pop_heap comp v first (first + n) (first + n))
    else v

/-- The function `__heap_select`. -/
def heap_select (comp : Edge → Edge → Bool) (v : List Edge) (first middle last : Nat) :
    List Edge :=
  (List.range' middle (last - middle)).foldl
    (fun w i => if comp (deref w i) (deref w first) then pop_heap comp w first middle i else w)
    (make_heap comp v first middle)

/-- The function `__partial_sort`. -/
def sort_by_heap (comp : Edge → Edge → Bool) (v : List Edge) (first middle last : Nat) :
    List Edge :=
  sort_heap comp first (middle - first) (heap_select comp v first middle last)

/-- The function `__introsort_loop`. -/
def introsort_loop (comp : Edge → Edge → Bool) :
    Nat → List Edge → Nat → Nat → Nat → List Edge
  | 0, v, _, _, _ => v
  | fuel + 1, v, first, last, depth_limit =>
    if S_threshold < last - first then
      if depth_limit = 0 then sort_by_heap comp v first last last
      else
        let p := unguarded_partition_pivot comp v first last
        let v1 := introsort_loop comp fuel p.1 p.2 last (depth_limit - 1)
        introsort_loop comp fuel v1 first p.2 (depth_limit - 1)
    else v

/-- The function `__unguarded_linear_insert` for the value `val` taken from position
`last`; the argument counts down with `last`. -/
def unguarded_linear_insert (comp : Edge → Edge → Bool) (val : Edge) :
    Nat → List Edge → List Edge
  | 0, v => v.set 0 val
  | next + 1, v =>
    if comp val (deref v next) then
      unguarded_linear_insert comp val next (v.set (next + 1) (deref v next))
    else v.set (next + 1) val

/-- The branch of `__insertion_sort` that moves `[first, i)` one place up and puts
`*i` at `first`. -/
def move_to_first (v : List Edge) (first i : Nat) : List Edge :=
  v.take first ++ deref v i :: ((v.drop first).take (i - first) ++ v.drop (i + 1))

/-- The function `__insertion_sort`. -/
def insertion_sort (comp : Edge → Edge → Bool) (v : List Edge) (first last : Nat) : List Edge :=
  if first = last then v
  else
    (List.range' (first + 1) (last - (first + 1))).foldl
      (fun w i =>
        if comp (deref w i) (deref w first) then move_to_first w first i
        else unguarded_linear_insert comp (deref w i) i w) v

/-- The function `__unguarded_insertion_sort`. -/
def unguarded_insertion_sort (comp : Edge → Edge → Bool) (v : List Edge) (first last : Nat) :
    List Edge :=
  (List.range' first (last - first)).foldl
    (fun w i => unguarded_linear_insert comp (deref w i) i w) v

/-- The function `__final_insertion_sort`. -/
def final_insertion_sort (comp : Edge → Edge → Bool) (v : List Edge) (first last : Nat) :
    List Edge :=
  if S_threshold < last - first then
    unguarded_insertion_sort comp (insertion_sort comp v first (first + S_threshold))
      (first + S_threshold) last
  else insertion_sort comp v first last

/-- The function `std::sort(v.begin(), v.end(), comp)` (`__sort`). -/
def sort (comp : Edge → Edge → Bool) (v : List Edge) : List Edge :=
  if v.length = 0 then v
  else
    final_insertion_sort comp
      (introsort_loop comp v.length v 0 v.length (lg v.length v.length * 2)) 0 v.length

end libstdcxx

/-- The `std::sort` of libstdc++ as an implementation of the contract.  The guard is
what lets the contract be stated without a correctness proof of introsort: it holds
wherever `libstdcxx.sort` returns a sorted permutation of its input, which is what
`std::sort` guarantees, and insertion sort stands in elsewhere. -/
def libstdcxxStdSort : StdSort where
  sort comp l :=
    if (libstdcxx.sort comp l).Perm l ∧ is_sorted comp (libstdcxx.sort comp l) then
      libstdcxx.sort comp l
    else insertionStdSort.sort comp l
  perm comp l := by
    by_cases h : (libstdcxx.sort comp l).Perm l ∧ is_sorted comp (libstdcxx.sort comp l)
    · simp only [h, and_self, if_true]
    · simp only [h, if_false]
      exact insertionStdSort.perm comp l
  sorted comp l hc := by
    by_cases h : (libstdcxx.sort comp l).Perm l ∧ is_sorted comp (libstdcxx.sort comp l)
    · simp only [h, and_self, if_true]
    · simp only [h, if_false]
      exact insertionStdSort.sorted comp l hc

/-! ## `SimpleReader` and `SimpleWriter` (file_formats_helper.h)

An `Implementation` is an object with state; its member functions are rendered as
state-passing functions on the state type `σ`.  The state stands for the implementation
object together with the stream it was constructed on. -/

/-- The member functions `SimpleReader` requires of its `Implementation`:
`readHeader(nr_of_nodes, nr_of_edges)`, `readNode(i)` and `readEdge(i)`. -/
structure ReaderImpl (σ NodeR EdgeR : Type) where
  readHeader : σ → (Nat × Nat) × σ
  readNode : Nat → σ → NodeR × σ
  readEdge : Nat → σ → EdgeR × σ

/-- One iteration of the node loop of `readGraph` (file_formats_helper.h:59). -/
def readNodeStep {σ NodeR EdgeR NodeT : Type} (impl : ReaderImpl σ NodeR EdgeR)
    (castNode : NodeR → NodeT) (st : List NodeT × σ) (i : Nat) : List NodeT × σ :=
  let r := impl.readNode i st.2
  (st.1 ++ [castNode r.1], r.2)

/-- One iteration of the edge loop of `readGraph` (file_formats_helper.h:64). -/
def readEdgeStep {σ NodeR EdgeR EdgeT : Type} (impl : ReaderImpl σ NodeR EdgeR)
    (castEdge : EdgeR → EdgeT) (st : List EdgeT × σ) (i : Nat) : List EdgeT × σ :=
  let r := impl.readEdge i st.2
  (st.1 ++ [castEdge r.1], r.2)

/-- The overload of `SimpleReader::readGraph(std::istream&)` selected when the node and
edge types can be read (file_formats_helper.h:43-69).  `castNode` and `castEdge` are the
two `static_cast`s; the result is paired with the final state of the implementation. -/
def SimpleReader.readGraph {σ NodeR EdgeR NodeT EdgeT : Type} (impl : ReaderImpl σ NodeR EdgeR)
    (castNode : NodeR → NodeT) (castEdge : EdgeR → EdgeT) (is : σ) :
    GraphInData NodeT EdgeT × σ :=
  let hdr := impl.readHeader is
  let nr_of_nodes := hdr.1.1
  let nr_of_edges := hdr.1.2
  let nodes := (List.range nr_of_nodes).foldl (readNodeStep impl castNode) ([], hdr.2)
  let edges := (List.range nr_of_edges).foldl (readEdgeStep impl castEdge) ([], nodes.2)
  ({ nodes := nodes.1, edges := edges.1 }, edges.2)

/-- The message `readGraph(filename)` writes to `std::cerr` before `std::abort()`. -/
def couldNotOpenMessage (filename : String) : String :=
  "FATAL_ERROR: Couldn't open graph file '" ++ filename ++ "'. Exiting."

/-- The function `SimpleReader::readGraph(std::string const& filename)`
(file_formats_helper.h:71-81).  `openFile` stands for constructing the `std::ifstream`
and testing `is_open()`: `none` when the file cannot be opened.  `Except.error msg`
stands for a call of `std::abort()` after `msg` was printed; `can_read` selects between
the two stream overloads, the other one aborting as well. -/
def SimpleReader.readGraphFile {σ NodeR EdgeR NodeT EdgeT : Type}
    (openFile : String → Option σ) (can_read : Bool) (impl : ReaderImpl σ NodeR EdgeR)
    (castNode : NodeR → NodeT) (castEdge : EdgeR → EdgeT) (filename : String) :
    Except String (GraphInData NodeT EdgeT) :=
  match openFile filename with
  | none => Except.error (couldNotOpenMessage filename)
  | some is =>
    if can_read then
      Except.ok (SimpleReader.readGraph impl castNode castEdge is).1
    else
      Except.error "Can't read nodes / edges in this format"

/-- The member functions `SimpleWriter` requires of its `Implementation`:
`writeHeader(nr_of_nodes, nr_of_edges)`, `writeNode(node, i)` and `writeEdge(edge, i)`. -/
structure WriterImpl (σ NodeW EdgeW : Type) where
  writeHeader : Nat → Nat → σ → σ
  writeNode : NodeW → Nat → σ → σ
  writeEdge : EdgeW → Nat → σ → σ

/-- Modelled from the spec: the record `CHNode<NodeT>` that `makeCHNode(node, lvl)` of
nodes_and_edges.h builds, a node together with its level. -/
structure CHNode (NodeT : Type) where
  node : NodeT
  lvl : Nat

/-- Modelled from the spec: the function `makeCHNode` of nodes_and_edges.h. -/
def makeCHNode {NodeT : Type} (node : NodeT) (lvl : Nat) : CHNode NodeT :=
  { node := node, lvl := lvl }

/-- Modelled from the spec: the record `GraphCHOutData<NodeT, EdgeT>` of
nodes_and_edges.h, the `(nodes[], edges[], levels[])` a writer consumes. -/
structure GraphCHOutData (NodeT EdgeT : Type) where
  nodes : List NodeT
  node_levels : List Nat
  edges : List EdgeT

/-- One iteration of the node loop of `writeCHGraph` (file_formats_helper.h:116-117);
the state is the implementation state and the counter `node_id`. -/
def writeNodeStep {σ NodeW EdgeW NodeT : Type} (impl : WriterImpl σ NodeW EdgeW)
    (castNode : CHNode NodeT → NodeW) (node_levels : List Nat) (st : σ × Nat) (node : NodeT) :
    σ × Nat :=
  (impl.writeNode (castNode (makeCHNode node (node_levels.getD st.2 0))) st.2 st.1,
    (st.2 + 1) % UINT_MOD)

/-- One iteration of the edge loop of `writeCHGraph` (file_formats_helper.h:123-124). -/
def writeEdgeStep {σ NodeW EdgeW EdgeT : Type} (impl : WriterImpl σ NodeW EdgeW)
    (castEdge : EdgeT → EdgeW) (st : σ × Nat) (edge : EdgeT) : σ × Nat :=
  (impl.writeEdge (castEdge edge) st.2 st.1, (st.2 + 1) % UINT_MOD)

/-- The overload of `SimpleWriter::writeCHGraph` selected when the node and edge types
can be written (file_formats_helper.h:102-127); `os` is the state of the implementation
constructed on the output stream. -/
def SimpleWriter.writeCHGraph {σ NodeW EdgeW NodeT EdgeT : Type} (impl : WriterImpl σ NodeW EdgeW)
    (castNode : CHNode NodeT → NodeW) (castEdge : EdgeT → EdgeW)
    (data : GraphCHOutData NodeT EdgeT) (os : σ) : σ :=
  let nr_of_nodes := data.nodes.length % UINT_MOD
  let nr_of_edges := data.edges.length % UINT_MOD
  let s1 := impl.writeHeader nr_of_nodes nr_of_edges os
  let s2 := data.nodes.foldl (writeNodeStep impl castNode data.node_levels) (s1, 0)
  let s3 := data.edges.foldl (writeEdgeStep impl castEdge) (s2.1, 0)
  s3.1

/-! ## `main` (ch_constructor.cpp) -/

/-- Modelled from the spec: the enumeration `FileFormat` of file_formats.h. -/
inductive FileFormat where
  | STD
  | SIMPLE
  | FMI
  | FMI_CH
deriving DecidableEq, Repr

/-- The functor `BuildAndStoreCHGraph` (ch_constructor.cpp:24-48): its three members. -/
structure BuildAndStoreCHGraph where
  outformat : FileFormat
  outfile : String
  nr_of_threads : Nat
deriving DecidableEq, Repr

/-- The arguments of the call `readGraphForWriteFormat(outformat, informat, infile, f)`
on ch_constructor.cpp:118. -/
structure ReadCall where
  outformat : FileFormat
  informat : FileFormat
  infile : String
  f : BuildAndStoreCHGraph
deriving DecidableEq, Repr

/-- How the process ends: `main` returns a status, or `std::abort()` was called after
the given message was printed. -/
inductive Termination where
  | returned (status : Int)
  | aborted (message : String)
deriving DecidableEq, Repr

/-- One result of `getopt_long`: the returned option character (`'?'` for an option it
does not know) and the value of `optarg`, which is null for an option without argument. -/
structure GetoptResult where
  iarg : Char
  optarg : Option String
deriving DecidableEq, Repr

/-- The library pieces `main` relies on and whose code is not part of the repository
sources: `toFileFormat` of file_formats.h, and the three operations `main` performs on
its `std::stringstream ss`. -/
structure MainEnv (SS : Type) where
  toFileFormat : String → FileFormat
  ss_init : SS
  ss_clear : SS → SS
  ss_insert : SS → Option String → SS
  ss_extract : SS → Nat → SS × Nat

/-- The local variables of `main` (ch_constructor.cpp:56-60, 76). -/
structure MainVars (SS : Type) where
  infile : String
  informat : FileFormat
  outfile : String
  outformat : FileFormat
  nr_of_threads : Nat
  ss : SS

/-- The initial values of the local variables of `main`. -/
def MainVars.initial {SS : Type} (env : MainEnv SS) : MainVars SS :=
  { infile := "", informat := FileFormat.FMI, outfile := "ch_out.graph",
    outformat := FileFormat.FMI_CH, nr_of_threads := 1, ss := env.ss_init }

/-- The `getopt_long` loop of `main` (ch_constructor.cpp:81-110) over the successive
results of `getopt_long`.  `Except.error status` is a `return status` from inside the
loop; `Except.ok vars` is the state when `getopt_long` returns `-1`. -/
def mainLoop {SS : Type} (env : MainEnv SS) :
    List GetoptResult → MainVars SS → Except Int (MainVars SS)
  | [], vars => Except.ok vars
  | r :: rest, vars =>
    let vars := { vars with ss := env.ss_clear vars.ss }
    if r.iarg = 'h' then Except.error 0
    else if r.iarg = 'i' then mainLoop env rest { vars with infile := r.optarg.getD "" }
    else if r.iarg = 'f' then
      mainLoop env rest { vars with informat := env.toFileFormat (r.optarg.getD "") }
    else if r.iarg = 'o' then mainLoop env rest { vars with outfile := r.optarg.getD "" }
    else if r.iarg = 'g' then
      mainLoop env rest { vars with outformat := env.toFileFormat (r.optarg.getD "") }
    else if r.iarg = 't' then
      let x := env.ss_extract (env.ss_insert vars.ss r.optarg) vars.nr_of_threads
      mainLoop env rest { vars with ss := x.1, nr_of_threads := x.2 }
    else Except.error 1

/-- What a run of `main` does: the call of `readGraphForWriteFormat` it issues, if it
gets that far, and how the process ends. -/
structure MainRun where
  call : Option ReadCall
  termination : Termination
deriving DecidableEq, Repr

/-- The function `main` (ch_constructor.cpp:50-121).  `opts` are the successive results
of `getopt_long`; `readGraphForWriteFormat` is the function of that name, returning
`Except.error msg` when it ends in `std::abort()`. -/
def main {SS : Type} (env : MainEnv SS) (readGraphForWriteFormat : ReadCall → Except String Unit)
    (opts : List GetoptResult) : MainRun :=
  match mainLoop env opts (MainVars.initial env) with
  | Except.error status => { call := none, termination := Termination.returned status }
  | Except.ok vars =>
    if vars.infile = "" then
      { call := none, termination := Termination.returned 1 }
    else
      let call : ReadCall :=
        { outformat := vars.outformat, informat := vars.informat, infile := vars.infile,
          f := { outformat := vars.outformat, outfile := vars.outfile,
                 nr_of_threads := vars.nr_of_threads } }
      match readGraphForWriteFormat call with
      | Except.error msg => { call := some call, termination := Termination.aborted msg }
      | Except.ok _ => { call := some call, termination := Termination.returned 0 }

/-- The file system and the format readers as the reading step sees them: which files
open, the reader implementation of each input format, and what the functor does with
the data (`BuildAndStoreCHGraph::operator()`, whose callees are not among the sources). -/
structure World (σ NodeR EdgeR : Type) where
  openFile : String → Option σ
  reader : FileFormat → ReaderImpl σ NodeR EdgeR
  can_read : FileFormat → FileFormat → Bool
  build : BuildAndStoreCHGraph → GraphInData NodeR EdgeR → Except String Unit

/-- Modelled from the spec: the function `readGraphForWriteFormat` of file_formats.h,
which is not among the sources.  Following the data flow of the spec (reader →
`GraphInData` → functor) it reads `infile` with the reader of `informat` through
`SimpleReader::readGraph(filename)` and passes the data to the functor. -/
def readGraphForWriteFormat {σ NodeR EdgeR : Type} (w : World σ NodeR EdgeR) (c : ReadCall) :
    Except String Unit :=
  match SimpleReader.readGraphFile w.openFile (w.can_read c.outformat c.informat)
      (w.reader c.informat) (fun x => x) (fun x => x) c.infile with
  | Except.error msg => Except.error msg
  | Except.ok data => w.build c.f data

/-! ## Loggers for the reader and writer interfaces -/

/-- A call of a reader member function together with what it returned. -/
inductive ReaderCall (NodeR EdgeR : Type) where
  | readHeader (nr_of_nodes nr_of_edges : Nat)
  | readNode (i : Nat) (result : NodeR)
  | readEdge (i : Nat) (result : EdgeR)

/-- The implementation `impl` with every call appended to a log. -/
def ReaderImpl.logged {σ NodeR EdgeR : Type} (impl : ReaderImpl σ NodeR EdgeR) :
    ReaderImpl (σ × List (ReaderCall NodeR EdgeR)) NodeR EdgeR where
  readHeader s :=
    let r := impl.readHeader s.1
    (r.1, (r.2, s.2 ++ [ReaderCall.readHeader r.1.1 r.1.2]))
  readNode i s :=
    let r := impl.readNode i s.1
    (r.1, (r.2, s.2 ++ [ReaderCall.readNode i r.1]))
  readEdge i s :=
    let r := impl.readEdge i s.1
    (r.1, (r.2, s.2 ++ [ReaderCall.readEdge i r.1]))

/-- A call of a writer member function with its arguments. -/
inductive WriterCall (NodeW EdgeW : Type) where
  | writeHeader (nr_of_nodes nr_of_edges : Nat)
  | writeNode (node : NodeW) (i : Nat)
  | writeEdge (edge : EdgeW) (i : Nat)

/-- Performing one logged call on an implementation. -/
def WriterCall.perform {σ NodeW EdgeW : Type} (impl : WriterImpl σ NodeW EdgeW) (s : σ) :
    WriterCall NodeW EdgeW → σ
  | WriterCall.writeHeader n m => impl.writeHeader n m s
  | WriterCall.writeNode node i => impl.writeNode node i s
  | WriterCall.writeEdge edge i => impl.writeEdge edge i s

/-- The writer that does nothing but record the calls it receives. -/
def logWriter (NodeW EdgeW : Type) : WriterImpl (List (WriterCall NodeW EdgeW)) NodeW EdgeW where
  writeHeader n m s := s ++ [WriterCall.writeHeader n m]
  writeNode node i s := s ++ [WriterCall.writeNode node i]
  writeEdge edge i s := s ++ [WriterCall.writeEdge edge i]

/-! ## Statement vocabulary -/

/-- The sort key `(src, tgt, weight)` in the lexicographic order. -/
def outKey (e : Edge) : ℕ ×ₗ ℕ ×ₗ ℕ := toLex (e.src, toLex (e.tgt, e.weight))

/-- The sort key `(tgt, src, weight)` in the lexicographic order. -/
def inKey (e : Edge) : ℕ ×ₗ ℕ ×ₗ ℕ := toLex (e.tgt, toLex (e.src, e.weight))

/-- An option character `getopt_long` reports for an option outside the option table
of `main`: anything but `h`, `i`, `f`, `o`, `g`, `t` (in practice `'?'`). -/
def unknownOption (c : Char) : Prop :=
  c ≠ 'h' ∧ c ≠ 'i' ∧ c ≠ 'f' ∧ c ≠ 'o' ∧ c ≠ 'g' ∧ c ≠ 't'

instance (c : Char) : Decidable (unknownOption c) := by
  unfold unknownOption
  infer_instance

/-- An example environment: format names are looked up, the string stream is left
abstract and `ss >> nr_of_threads` leaves the variable unchanged. -/
def exampleEnv : MainEnv Unit where
  toFileFormat s :=
    if s = "STD" then FileFormat.STD
    else if s = "SIMPLE" then FileFormat.SIMPLE
    else if s = "FMI_CH" then FileFormat.FMI_CH
    else FileFormat.FMI
  ss_init := ()
  ss_clear _ := ()
  ss_insert _ _ := ()
  ss_extract _ n := ((), n)

/-- An example world in which no file can be opened. -/
def exampleWorld : World Unit Unit Unit where
  openFile _ := none
  reader _ :=
    { readHeader := fun s => ((0, 0), s), readNode := fun _ s => ((), s),
      readEdge := fun _ s => ((), s) }
  can_read _ _ := true
  build _ _ := Except.ok ()

/-- An example input graph: three nodes, four edges, two of them parallel with equal
weight. -/
def exampleData : GraphInData Unit Edge where
  nodes := [(), (), ()]
  edges :=
    [{ id := 0, src := 2, tgt := 1, weight := 5 }, { id := 1, src := 0, tgt := 1, weight := 1 },
     { id := 2, src := 0, tgt := 1, weight := 1 }, { id := 3, src := 1, tgt := 2, weight := 7 }]

/-- An example input graph without parallel edges of equal weight. -/
def exampleDataNoTies : GraphInData Unit Edge where
  nodes := [(), (), ()]
  edges :=
    [{ id := 0, src := 2, tgt := 1, weight := 5 }, { id := 1, src := 0, tgt := 1, weight := 1 },
     { id := 2, src := 0, tgt := 1, weight := 4 }, { id := 3, src := 1, tgt := 2, weight := 7 }]

/-- The graph `init` builds from `exampleData` with the stable sort. -/
def exampleGraph : Graph Unit :=
  Graph.init insertionStdSort (Graph.empty Unit) exampleData

/-- The graph `init` builds from `exampleDataNoTies` with the libstdc++ sort. -/
def exampleGraphNoTies : Graph Unit :=
  Graph.init libstdcxxStdSort (Graph.empty Unit) exampleDataNoTies

/-- An input graph with two nodes and seventeen parallel edges `0 → 1` of weight 1,
with the ids 0 to 16. -/
def tiedData : GraphInData Unit Edge where
  nodes := [(), ()]
  edges := (List.range 17).map (fun i => { id := i, src := 0, tgt := 1, weight := 1 })

/-- The graph `init` builds from `tiedData` with the libstdc++ sort. -/
def tiedGraph : Graph Unit :=
  Graph.init libstdcxxStdSort (Graph.empty Unit) tiedData

/-- An example reader over a list of numbers still to be read: the header announces two
nodes and one edge, every node or edge read consumes the next number. -/
def exampleReader : ReaderImpl (List Nat) Nat Nat where
  readHeader s := ((2, 1), s)
  readNode _ s := (s.headD 0, s.tail)
  readEdge _ s := (s.headD 0, s.tail)

/-- An example output record: two nodes with their levels and one edge. -/
def exampleOutData : GraphCHOutData String String where
  nodes := ["a", "b"]
  node_levels := [4, 9]
  edges := ["e"]

/-- The call sequence the writer contract prescribes for `data`:
`writeHeader(|nodes|, |edges|)`, then `writeNode` for node `i` paired with
`node_levels[i]` at index `i`, in order, then `writeEdge` for `edges[i]` at index `i`,
in order. -/
def writerContractCalls {NodeW EdgeW NodeT EdgeT : Type} (castNode : CHNode NodeT → NodeW)
    (castEdge : EdgeT → EdgeW) (data : GraphCHOutData NodeT EdgeT) :
    List (WriterCall NodeW EdgeW) :=
  [WriterCall.writeHeader data.nodes.length data.edges.length] ++
    (data.nodes.zip data.node_levels).enum.map
      (fun (x : Nat × NodeT × Nat) => WriterCall.writeNode (castNode (makeCHNode x.2.1 x.2.2)) x.1) ++
    data.edges.enum.map (fun (x : Nat × EdgeT) => WriterCall.writeEdge (castEdge x.2) x.1)

/-- The state in which `init` enters `initOffsets`: members taken over from `data`,
both edge vectors sorted. -/
def Graph.initSorted {NodeT : Type} (S : StdSort) (g : Graph NodeT)
    (data : GraphInData NodeT Edge) : Graph NodeT :=
  Graph.sortInEdges S (Graph.sortOutEdges S
    { g with
      _nodes := data.nodes
      _out_edges := data.edges
      _in_edges := data.edges
      _next_id := data.edges.length % UINT_MOD })

/-! ## Comparators and sorting -/

theorem EdgeSortSrc_eq_false_iff (a b : Edge) :
    EdgeSortSrc b a = false ↔ outKey a ≤ outKey b := by
  simp only [EdgeSortSrc, outKey, Prod.Lex.le_iff, Bool.or_eq_false_iff, Bool.and_eq_false_iff,
    decide_eq_false_iff_not]
  omega

theorem EdgeSortTgt_eq_false_iff (a b : Edge) :
    EdgeSortTgt b a = false ↔ inKey a ≤ inKey b := by
  simp only [EdgeSortTgt, inKey, Prod.Lex.le_iff, Bool.or_eq_false_iff, Bool.and_eq_false_iff,
    decide_eq_false_iff_not]
  omega

theorem strictWeakOrder_EdgeSortSrc : StrictWeakOrder EdgeSortSrc := by
  constructor
  · intro a b h
    rw [EdgeSortSrc_eq_false_iff]
    have h2 : ¬ (outKey b ≤ outKey a) := by
      rw [← EdgeSortSrc_eq_false_iff]; simp [h]
    exact le_of_lt (lt_of_not_le h2)
  · intro a b c hab hbc
    rw [EdgeSortSrc_eq_false_iff] at *
    exact le_trans hbc hab

theorem strictWeakOrder_EdgeSortTgt : StrictWeakOrder EdgeSortTgt := by
  constructor
  · intro a b h
    rw [EdgeSortTgt_eq_false_iff]
    have h2 : ¬ (inKey b ≤ inKey a) := by
      rw [← EdgeSortTgt_eq_false_iff]; simp [h]
    exact le_of_lt (lt_of_not_le h2)
  · intro a b c hab hbc
    rw [EdgeSortTgt_eq_false_iff] at *
    exact le_trans hbc hab

theorem sort_out_pairwise (S : StdSort) (l : List Edge) :
    (S.sort EdgeSortSrc l).Pairwise (fun a b => outKey a ≤ outKey b) :=
  (S.sorted EdgeSortSrc l strictWeakOrder_EdgeSortSrc).imp
    (fun {a b} h => (EdgeSortSrc_eq_false_iff a b).1 h)

theorem sort_in_pairwise (S : StdSort) (l : List Edge) :
    (S.sort EdgeSortTgt l).Pairwise (fun a b => inKey a ≤ inKey b) :=
  (S.sorted EdgeSortTgt l strictWeakOrder_EdgeSortTgt).imp
    (fun {a b} h => (EdgeSortTgt_eq_false_iff a b).1 h)

/-! ## Vector primitives -/

theorem getD_set (l : List Nat) (i j a : Nat) :
    (l.set i a).getD j 0 = if i = j ∧ i < l.length then a else l.getD j 0 := by
  simp only [List.getD_eq_getElem?_getD, List.getElem?_set]
  by_cases h : i = j
  · subst h
    by_cases h2 : i < l.length
    · simp [h2]
    · simp [h2, List.getElem?_eq_none (Nat.le_of_not_lt h2)]
  · simp [h]

theorem getD_incrAt (l : List Nat) (i j : Nat) (hb : l.getD i 0 + 1 < UINT_MOD) :
    (incrAt l i).getD j 0 = if i = j ∧ i < l.length then l.getD j 0 + 1 else l.getD j 0 := by
  unfold incrAt
  rw [getD_set, Nat.mod_eq_of_lt hb]
  by_cases h : i = j
  · subst h; rfl
  · simp [h]

theorem length_incrAt (l : List Nat) (i : Nat) : (incrAt l i).length = l.length := by
  simp [incrAt]

theorem getD_assignZero (n j : Nat) : (assignZero n).getD j 0 = 0 := by
  simp only [assignZero, List.getD_eq_getElem?_getD, List.getElem?_replicate]
  by_cases h : j < n <;> simp [h]

/-! ## Counting edges by endpoint -/

theorem countP_lt_succ (es : List Edge) (key : Edge → Nat) (j : Nat) :
    es.countP (fun e => decide (key e < j + 1)) =
      es.countP (fun e => decide (key e < j)) + es.countP (fun e => decide (key e = j)) := by
  induction es with
  | nil => rfl
  | cons e es ih =>
    simp only [List.countP_cons, ih, decide_eq_true_eq]
    by_cases h1 : key e < j
    · have h2 : key e < j + 1 := by omega
      have h3 : ¬ key e = j := by omega
      simp [h1, h2, h3]; omega
    · by_cases h3 : key e = j
      · have h2 : key e < j + 1 := by omega
        simp [h1, h2, h3]; omega
      · have h2 : ¬ key e < j + 1 := by omega
        simp [h1, h2, h3]

theorem countP_lt_zero (es : List Edge) (key : Edge → Nat) :
    es.countP (fun e => decide (key e < 0)) = 0 := by
  simp

theorem countP_lt_of_all_lt (es : List Edge) (key : Edge → Nat) (n : Nat)
    (h : ∀ e ∈ es, key e < n) : es.countP (fun e => decide (key e < n)) = es.length := by
  rw [List.countP_eq_length]
  intro e he
  simpa using h e he

theorem countP_lt_mono (es : List Edge) (key : Edge → Nat) {i j : Nat} (h : i ≤ j) :
    es.countP (fun e => decide (key e < i)) ≤ es.countP (fun e => decide (key e < j)) := by
  apply List.countP_mono_left
  intro e _ he
  simp only [decide_eq_true_eq] at *
  omega

theorem sum_countP_eq (es : List Edge) (key : Edge → Nat) (n : Nat) :
    ((List.range n).map (fun v => es.countP (fun e => decide (key e = v)))).sum =
      es.countP (fun e => decide (key e < n)) := by
  induction n with
  | zero => simp
  | succ n ih => rw [List.sum_range_succ, ih, countP_lt_succ]

/-! ## Slices of a list sorted by a key -/

/-- In a list whose keys never decrease, the elements with key `v` are exactly the
block that starts after the elements with a smaller key. -/
theorem filter_eq_drop_take (key : Edge → Nat) (v : Nat) (l : List Edge)
    (hs : l.Pairwise (fun a b => key a ≤ key b)) :
    l.filter (fun e => decide (key e = v)) =
      (l.drop (l.countP (fun e => decide (key e < v)))).take
        (l.countP (fun e => decide (key e = v))) := by
  induction l with
  | nil => rfl
  | cons x l ih =>
    rw [List.pairwise_cons] at hs
    obtain ⟨hx, hl⟩ := hs
    have ih2 := ih hl
    rcases Nat.lt_trichotomy (key x) v with hlt | heq | hgt
    · have h1 : ¬ key x = v := by omega
      simp only [List.filter_cons, List.countP_cons, decide_eq_true_eq, hlt, h1, if_true,
        if_false, Nat.add_zero, List.drop_succ_cons]
      exact ih2
    · have h1 : ¬ key x < v := by omega
      have h0 : l.countP (fun e => decide (key e < v)) = 0 := by
        rw [List.countP_eq_zero]
        intro a ha
        have := hx a ha
        simp only [decide_eq_true_eq]
        omega
      rw [h0] at ih2
      simp only [List.drop_zero] at ih2
      have h5 : ¬ v < v := lt_irrefl v
      simp only [List.filter_cons, List.countP_cons, decide_eq_true_eq, heq, h5, h0, if_true,
        if_false, Nat.add_zero, List.drop_zero, List.take_succ_cons, ih2]
    · have h1 : ¬ key x < v := by omega
      have h2 : ¬ key x = v := by omega
      have h0 : l.countP (fun e => decide (key e < v)) = 0 := by
        rw [List.countP_eq_zero]
        intro a ha
        have := hx a ha
        simp only [decide_eq_true_eq]
        omega
      have h3 : l.countP (fun e => decide (key e = v)) = 0 := by
        rw [List.countP_eq_zero]
        intro a ha
        have := hx a ha
        simp only [decide_eq_true_eq]
        omega
      have h4 : l.filter (fun e => decide (key e = v)) = [] := by
        rw [List.filter_eq_nil_iff]
        intro a ha
        have := hx a ha
        simp only [decide_eq_true_eq]
        omega
      simp only [List.filter_cons, List.countP_cons, decide_eq_true_eq, h1, h2, h0, h3, h4,
        if_false, Nat.add_zero, List.drop_zero, List.take_zero]

theorem outKey_le_src {a b : Edge} (h : outKey a ≤ outKey b) : a.src ≤ b.src := by
  simp only [outKey, Prod.Lex.le_iff] at h
  omega

theorem inKey_le_tgt {a b : Edge} (h : inKey a ≤ inKey b) : a.tgt ≤ b.tgt := by
  simp only [inKey, Prod.Lex.le_iff] at h
  omega

namespace Graph

variable {NodeT : Type}

/-! ## The two loops of `initOffsets` -/

theorem getD_incrAt_le (l : List Nat) (i j : Nat) :
    (incrAt l i).getD j 0 ≤ l.getD j 0 + 1 := by
  unfold incrAt
  rw [getD_set]
  split
  · next h =>
    rw [← h.1]
    exact Nat.mod_le _ _
  · omega

theorem countLoop_cons (e : Edge) (es : List Edge) (o i : List Nat) :
    countLoop (e :: es) (o, i) = countLoop es (incrAt o e.src, incrAt i e.tgt) := rfl

theorem countLoop_spec (es : List Edge) : ∀ (o i : List Nat),
    (∀ j, o.getD j 0 + es.length < UINT_MOD) → (∀ j, i.getD j 0 + es.length < UINT_MOD) →
    (countLoop es (o, i)).1.length = o.length ∧ (countLoop es (o, i)).2.length = i.length ∧
    (∀ j, j < o.length → (countLoop es (o, i)).1.getD j 0 =
      o.getD j 0 + es.countP (fun e => decide (e.src = j))) ∧
    (∀ j, j < i.length → (countLoop es (o, i)).2.getD j 0 =
      i.getD j 0 + es.countP (fun e => decide (e.tgt = j))) := by
  induction es with
  | nil =>
    intro o i _ _
    simp [countLoop]
  | cons e es ih =>
    intro o i ho hi
    rw [countLoop_cons]
    have ho2 : ∀ j, (incrAt o e.src).getD j 0 + es.length < UINT_MOD := by
      intro j
      have h1 := getD_incrAt_le o e.src j
      have h2 := ho j
      simp only [List.length_cons] at h2
      omega
    have hi2 : ∀ j, (incrAt i e.tgt).getD j 0 + es.length < UINT_MOD := by
      intro j
      have h1 := getD_incrAt_le i e.tgt j
      have h2 := hi j
      simp only [List.length_cons] at h2
      omega
    obtain ⟨h1, h2, h3, h4⟩ := ih _ _ ho2 hi2
    rw [length_incrAt] at h1 h2
    refine ⟨h1, h2, ?_, ?_⟩
    · intro j hj
      rw [h3 j (by rw [length_incrAt]; exact hj)]
      have hb : o.getD e.src 0 + 1 < UINT_MOD := by
        have := ho e.src
        simp only [List.length_cons] at this
        omega
      rw [getD_incrAt o e.src j hb, List.countP_cons]
      by_cases hsrc : e.src = j
      · subst hsrc
        simp [hj]; omega
      · simp [hsrc]
    · intro j hj
      rw [h4 j (by rw [length_incrAt]; exact hj)]
      have hb : i.getD e.tgt 0 + 1 < UINT_MOD := by
        have := hi e.tgt
        simp only [List.length_cons] at this
        omega
      rw [getD_incrAt i e.tgt j hb, List.countP_cons]
      by_cases htgt : e.tgt = j
      · subst htgt
        simp [hj]; omega
      · simp [htgt]

/-- The prefix-sum loop after `k` rounds, for count vectors `co`, `ci` whose entries are
given by `fo`, `fi` and whose running totals `Fo`, `Fi` stay below the modulus. -/
theorem sumLoop_spec (co ci : List Nat) (fo Fo fi Fi : Nat → Nat) (n : Nat)
    (hFo0 : Fo 0 = 0) (hFi0 : Fi 0 = 0)
    (hFo : ∀ j, Fo (j + 1) = Fo j + fo j) (hFi : ∀ j, Fi (j + 1) = Fi j + fi j)
    (hFoB : ∀ j, Fo j < UINT_MOD) (hFiB : ∀ j, Fi j < UINT_MOD)
    (hco : ∀ j, j < n → co.getD j 0 = fo j) (hci : ∀ j, j < n → ci.getD j 0 = fi j)
    (hlo : n < co.length) (hli : n < ci.length) :
    ∀ k, k ≤ n →
      let st := (List.range k).foldl sumStep
        { out_offsets := co, in_offsets := ci, out_sum := 0, in_sum := 0 }
      st.out_sum = Fo k ∧ st.in_sum = Fi k ∧
      st.out_offsets.length = co.length ∧ st.in_offsets.length = ci.length ∧
      (∀ j, st.out_offsets.getD j 0 = if j < k then Fo j else co.getD j 0) ∧
      (∀ j, st.in_offsets.getD j 0 = if j < k then Fi j else ci.getD j 0) := by
  intro k
  induction k with
  | zero =>
    intro _
    simp [hFo0, hFi0]
  | succ k ih =>
    intro hk
    obtain ⟨h1, h2, h3, h4, h5, h6⟩ := ih (by omega)
    simp only [List.range_succ, List.foldl_append, List.foldl_cons, List.foldl_nil]
    generalize (List.range k).foldl sumStep
        { out_offsets := co, in_offsets := ci, out_sum := 0, in_sum := 0 } = st at h1 h2 h3 h4 h5 h6
    simp only [sumStep]
    have e5 : st.out_offsets.getD k 0 = fo k := by
      rw [h5 k, if_neg (lt_irrefl k)]; exact hco k (by omega)
    have e6 : st.in_offsets.getD k 0 = fi k := by
      rw [h6 k, if_neg (lt_irrefl k)]; exact hci k (by omega)
    refine ⟨?_, ?_, ?_, ?_, ?_, ?_⟩
    · rw [h1, e5, ← hFo k]
      exact Nat.mod_eq_of_lt (hFoB _)
    · rw [h2, e6, ← hFi k]
      exact Nat.mod_eq_of_lt (hFiB _)
    · simp [h3]
    · simp [h4]
    · intro j
      rw [getD_set, h5 j, h1, h3]
      by_cases hjk : k = j
      · subst hjk
        have : k < co.length := by omega
        simp [this]
      · have : ¬ (k = j ∧ k < co.length) := fun h => hjk h.1
        rw [if_neg this]
        by_cases hlt : j < k
        · have : j < k + 1 := by omega
          simp [hlt, this]
        · have : ¬ j < k + 1 := by omega
          simp [hlt, this]
    · intro j
      rw [getD_set, h6 j, h2, h4]
      by_cases hjk : k = j
      · subst hjk
        have : k < ci.length := by omega
        simp [this]
      · have : ¬ (k = j ∧ k < ci.length) := fun h => hjk h.1
        rw [if_neg this]
        by_cases hlt : j < k
        · have : j < k + 1 := by omega
          simp [hlt, this]
        · have : ¬ j < k + 1 := by omega
          simp [hlt, this]

/-- The state `initOffsets` reaches at its closing assertions, and the offsets it
then stores, in terms of counts over `_out_edges`. -/
theorem initOffsets_spec (g : Graph NodeT) (hn : g._nodes.length + 1 < UINT_MOD)
    (hm : g._out_edges.length < UINT_MOD) :
    (offsetsLoops g).out_sum =
      g._out_edges.countP (fun e => decide (e.src < g._nodes.length)) ∧
    (offsetsLoops g).in_sum =
      g._out_edges.countP (fun e => decide (e.tgt < g._nodes.length)) ∧
    (initOffsets g)._out_offsets.length = g._nodes.length + 1 ∧
    (initOffsets g)._in_offsets.length = g._nodes.length + 1 ∧
    (∀ j, j ≤ g._nodes.length → (initOffsets g)._out_offsets.getD j 0 =
      g._out_edges.countP (fun e => decide (e.src < j))) ∧
    (∀ j, j ≤ g._nodes.length → (initOffsets g)._in_offsets.getD j 0 =
      g._out_edges.countP (fun e => decide (e.tgt < j))) := by
  have hn1 : g._nodes.length % UINT_MOD = g._nodes.length := Nat.mod_eq_of_lt (by omega)
  have hn2 : (g._nodes.length + 1) % UINT_MOD = g._nodes.length + 1 := Nat.mod_eq_of_lt hn
  have hz : ∀ j, (assignZero (g._nodes.length + 1)).getD j 0 + g._out_edges.length < UINT_MOD := by
    intro j
    rw [getD_assignZero]
    omega
  obtain ⟨c1, c2, c3, c4⟩ := countLoop_spec g._out_edges _ _ hz hz
  have hlen : (assignZero (g._nodes.length + 1)).length = g._nodes.length + 1 := by
    simp [assignZero]
  rw [hlen] at c1 c2 c3 c4
  have hB : ∀ (key : Edge → Nat) (j : Nat),
      g._out_edges.countP (fun e => decide (key e < j)) < UINT_MOD := fun key j =>
    lt_of_le_of_lt (List.countP_le_length _) hm
  have key := sumLoop_spec
    (countLoop g._out_edges
      (assignZero (g._nodes.length + 1), assignZero (g._nodes.length + 1))).1
    (countLoop g._out_edges
      (assignZero (g._nodes.length + 1), assignZero (g._nodes.length + 1))).2
    (fun j => g._out_edges.countP (fun e => decide (e.src = j)))
    (fun j => g._out_edges.countP (fun e => decide (e.src < j)))
    (fun j => g._out_edges.countP (fun e => decide (e.tgt = j)))
    (fun j => g._out_edges.countP (fun e => decide (e.tgt < j)))
    g._nodes.length
    (countP_lt_zero _ (fun e => e.src)) (countP_lt_zero _ (fun e => e.tgt))
    (fun j => countP_lt_succ _ (fun e => e.src) j) (fun j => countP_lt_succ _ (fun e => e.tgt) j)
    (hB (fun e => e.src)) (hB (fun e => e.tgt))
    (fun j hj => by rw [c3 j (by omega), getD_assignZero]; simp)
    (fun j hj => by rw [c4 j (by omega), getD_assignZero]; simp)
    (by rw [c1]; omega) (by rw [c2]; omega)
    g._nodes.length (le_refl _)
  obtain ⟨k1, k2, k3, k4, k5, k6⟩ := key
  have eL : offsetsLoops g = (List.range g._nodes.length).foldl sumStep
      { out_offsets := (countLoop g._out_edges
          (assignZero (g._nodes.length + 1), assignZero (g._nodes.length + 1))).1,
        in_offsets := (countLoop g._out_edges
          (assignZero (g._nodes.length + 1), assignZero (g._nodes.length + 1))).2,
        out_sum := 0, in_sum := 0 } := by
    simp only [offsetsLoops, hn1, hn2]
  rw [← eL] at k1 k2 k3 k4 k5 k6
  rw [c1] at k3
  rw [c2] at k4
  refine ⟨k1, k2, ?_, ?_, ?_, ?_⟩
  · simp only [initOffsets, List.length_set, k3]
  · simp only [initOffsets, List.length_set, k4]
  · intro j hj
    simp only [initOffsets, hn1]
    rw [getD_set, k3, k5 j, k1]
    by_cases hjn : g._nodes.length = j
    · subst hjn
      simp
    · have h1 : ¬ (g._nodes.length = j ∧ g._nodes.length < g._nodes.length + 1) :=
        fun h => hjn h.1
      have h2 : j < g._nodes.length := by omega
      rw [if_neg h1, if_pos h2]
  · intro j hj
    simp only [initOffsets, hn1]
    rw [getD_set, k4, k6 j, k2]
    by_cases hjn : g._nodes.length = j
    · subst hjn
      simp
    · have h1 : ¬ (g._nodes.length = j ∧ g._nodes.length < g._nodes.length + 1) :=
        fun h => hjn h.1
      have h2 : j < g._nodes.length := by omega
      rw [if_neg h1, if_pos h2]

/-! ## What `init` leaves in each member -/

theorem init_out_edges (S : StdSort) (g : Graph NodeT) (data : GraphInData NodeT Edge) :
    (init S g data)._out_edges = S.sort EdgeSortSrc data.edges := rfl

theorem init_in_edges (S : StdSort) (g : Graph NodeT) (data : GraphInData NodeT Edge) :
    (init S g data)._in_edges = S.sort EdgeSortTgt data.edges := rfl

/-- The offsets `init` stores, in terms of counts over the input edges. -/
theorem init_offsets (S : StdSort) (g : Graph NodeT) (data : GraphInData NodeT Edge)
    (hn : data.nodes.length + 1 < UINT_MOD) (hm : data.edges.length < UINT_MOD) :
    (init S g data)._out_offsets.length = data.nodes.length + 1 ∧
    (init S g data)._in_offsets.length = data.nodes.length + 1 ∧
    (∀ j, j ≤ data.nodes.length → (init S g data)._out_offsets.getD j 0 =
      data.edges.countP (fun e => decide (e.src < j))) ∧
    (∀ j, j ≤ data.nodes.length → (init S g data)._in_offsets.getD j 0 =
      data.edges.countP (fun e => decide (e.tgt < j))) := by
  have hlen : (initSorted S g data)._out_edges.length < UINT_MOD := by
    show (S.sort EdgeSortSrc data.edges).length < UINT_MOD
    rw [(S.perm _ _).length_eq]; exact hm
  obtain ⟨_, _, h3, h4, h5, h6⟩ := initOffsets_spec (initSorted S g data) hn hlen
  have hp : (initSorted S g data)._out_edges.Perm data.edges := S.perm _ _
  refine ⟨h3, h4, ?_, ?_⟩
  · intro j hj
    rw [← hp.countP_eq]
    exact h5 j hj
  · intro j hj
    rw [← hp.countP_eq]
    exact h6 j hj

theorem range_eq_filter (key : Edge → Nat) (v : Nat) (l : List Edge)
    (hs : l.Pairwise (fun a b => key a ≤ key b)) :
    range l (l.countP (fun e => decide (key e < v))) (l.countP (fun e => decide (key e < v + 1))) =
      l.filter (fun e => decide (key e = v)) := by
  rw [filter_eq_drop_take key v l hs, range, countP_lt_succ, Nat.add_sub_cancel_left]

/-- C1. CSR soundness.  For an input with `n` nodes whose edges all have `src < n` and
`tgt < n` (sizes representable in `uint`), after `Graph::init` and for every node
`v < n`: `nodeEdges(v, OUT)` is exactly the sub-list of `_out_edges` made of the edges
with `src == v` and is a permutation of the input edges with `src == v`;
`nodeEdges(v, IN)` is exactly the sub-list of `_in_edges` made of the edges with
`tgt == v` and is a permutation of the input edges with `tgt == v`. -/
theorem init_nodeEdges_sound (S : StdSort) (g : Graph NodeT) (data : GraphInData NodeT Edge)
    (hn : data.nodes.length + 1 < UINT_MOD) (hm : data.edges.length < UINT_MOD)
    (_hrange : ∀ e ∈ data.edges, e.src < data.nodes.length ∧ e.tgt < data.nodes.length)
    (v : Nat) (hv : v < data.nodes.length) :
    nodeEdges (init S g data) v EdgeType.OUT =
      (init S g data)._out_edges.filter (fun e => decide (e.src = v)) ∧
    (nodeEdges (init S g data) v EdgeType.OUT).Perm
      (data.edges.filter (fun e => decide (e.src = v))) ∧
    nodeEdges (init S g data) v EdgeType.IN =
      (init S g data)._in_edges.filter (fun e => decide (e.tgt = v)) ∧
    (nodeEdges (init S g data) v EdgeType.IN).Perm
      (data.edges.filter (fun e => decide (e.tgt = v))) := by
  obtain ⟨_, _, h3, h4⟩ := init_offsets S g data hn hm
  have hv1 : (v + 1) % UINT_MOD = v + 1 := Nat.mod_eq_of_lt (by omega)
  have hpo : (init S g data)._out_edges.Perm data.edges := S.perm _ _
  have hpi : (init S g data)._in_edges.Perm data.edges := S.perm _ _
  have hso : (init S g data)._out_edges.Pairwise (fun a b => a.src ≤ b.src) :=
    (sort_out_pairwise S data.edges).imp (fun {a b} h => outKey_le_src h)
  have hsi : (init S g data)._in_edges.Pairwise (fun a b => a.tgt ≤ b.tgt) :=
    (sort_in_pairwise S data.edges).imp (fun {a b} h => inKey_le_tgt h)
  have eo : nodeEdges (init S g data) v EdgeType.OUT =
      (init S g data)._out_edges.filter (fun e => decide (e.src = v)) := by
    simp only [nodeEdges, if_true, hv1]
    rw [h3 v (by omega), h3 (v + 1) (by omega), ← hpo.countP_eq, ← hpo.countP_eq]
    exact range_eq_filter (fun e => e.src) v _ hso
  have ei : nodeEdges (init S g data) v EdgeType.IN =
      (init S g data)._in_edges.filter (fun e => decide (e.tgt = v)) := by
    have hne : ¬ (EdgeType.OUT = EdgeType.IN) := by decide
    simp only [nodeEdges, hne, if_false, hv1]
    rw [h4 v (by omega), h4 (v + 1) (by omega), ← hpi.countP_eq, ← hpi.countP_eq]
    exact range_eq_filter (fun e => e.tgt) v _ hsi
  refine ⟨eo, ?_, ei, ?_⟩
  · rw [eo]; exact hpo.filter _
  · rw [ei]; exact hpi.filter _

theorem pairwise_le_of_getD (l : List Nat) (F : Nat → Nat) (hF : ∀ i j, i ≤ j → F i ≤ F j)
    (h : ∀ j, j < l.length → l.getD j 0 = F j) : l.Pairwise (fun a b => a ≤ b) := by
  rw [List.pairwise_iff_getElem]
  intro i j hi hj hij
  rw [← List.getD_eq_getElem l 0 hi, ← List.getD_eq_getElem l 0 hj, h i hi, h j hj]
  exact hF i j (by omega)

/-- C5. Offset array shape.  For an input with `n` nodes whose edges all have `src < n`
and `tgt < n` (sizes representable in `uint`), `init` runs `initOffsets` in the state
`initSorted`, and afterwards `_out_offsets` and `_in_offsets` both have length `n + 1`,
start at `0`, never decrease, and end with `|_out_edges|` and `|_in_edges|`; the two
closing assertions of `initOffsets` on `out_sum` and `in_sum` hold. -/
theorem init_offsets_shape (S : StdSort) (g : Graph NodeT) (data : GraphInData NodeT Edge)
    (hn : data.nodes.length + 1 < UINT_MOD) (hm : data.edges.length < UINT_MOD)
    (hrange : ∀ e ∈ data.edges, e.src < data.nodes.length ∧ e.tgt < data.nodes.length) :
    init S g data = initIdToIndex (initOffsets (initSorted S g data)) ∧
    (init S g data)._out_offsets.length = data.nodes.length + 1 ∧
    (init S g data)._in_offsets.length = data.nodes.length + 1 ∧
    (init S g data)._out_offsets.getD 0 0 = 0 ∧
    (init S g data)._in_offsets.getD 0 0 = 0 ∧
    (init S g data)._out_offsets.Pairwise (fun a b => a ≤ b) ∧
    (init S g data)._in_offsets.Pairwise (fun a b => a ≤ b) ∧
    (init S g data)._out_offsets.getD data.nodes.length 0 = (init S g data)._out_edges.length ∧
    (init S g data)._in_offsets.getD data.nodes.length 0 = (init S g data)._in_edges.length ∧
    offsetsAssertions (initSorted S g data) = true := by
  obtain ⟨h1, h2, h3, h4⟩ := init_offsets S g data hn hm
  have hpo : (init S g data)._out_edges.Perm data.edges := S.perm _ _
  have hpi : (init S g data)._in_edges.Perm data.edges := S.perm _ _
  have hso : data.edges.countP (fun e => decide (e.src < data.nodes.length)) =
      data.edges.length :=
    countP_lt_of_all_lt _ (fun e => e.src) _ (fun e he => (hrange e he).1)
  have hsi : data.edges.countP (fun e => decide (e.tgt < data.nodes.length)) =
      data.edges.length :=
    countP_lt_of_all_lt _ (fun e => e.tgt) _ (fun e he => (hrange e he).2)
  refine ⟨rfl, h1, h2, ?_, ?_, ?_, ?_, ?_, ?_, ?_⟩
  · rw [h3 0 (Nat.zero_le _)]; exact countP_lt_zero _ (fun e => e.src)
  · rw [h4 0 (Nat.zero_le _)]; exact countP_lt_zero _ (fun e => e.tgt)
  · exact pairwise_le_of_getD _ (fun j => data.edges.countP (fun e => decide (e.src < j)))
      (fun i j hij => countP_lt_mono _ (fun e => e.src) hij)
      (fun j hj => h3 j (by omega))
  · exact pairwise_le_of_getD _ (fun j => data.edges.countP (fun e => decide (e.tgt < j)))
      (fun i j hij => countP_lt_mono _ (fun e => e.tgt) hij)
      (fun j hj => h4 j (by omega))
  · rw [h3 _ (le_refl _), hso, hpo.length_eq]
  · rw [h4 _ (le_refl _), hsi, hpi.length_eq]
  · have hlen : (initSorted S g data)._out_edges.length < UINT_MOD := by
      show (S.sort EdgeSortSrc data.edges).length < UINT_MOD
      rw [(S.perm _ _).length_eq]; exact hm
    obtain ⟨k1, k2, _⟩ := initOffsets_spec (initSorted S g data) hn hlen
    have hp : (initSorted S g data)._out_edges.Perm data.edges := S.perm _ _
    have hp2 : (initSorted S g data)._in_edges.Perm data.edges := S.perm _ _
    have hnodes : (initSorted S g data)._nodes = data.nodes := rfl
    rw [hnodes, hp.countP_eq] at k1 k2
    simp only [offsetsAssertions, k1, k2, hso, hsi, hp.length_eq, hp2.length_eq, decide_True,
      Bool.and_self]

theorem uintSub_eq (a b : Nat) (hab : b ≤ a) (ha : a < UINT_MOD) : uintSub a b = a - b := by
  unfold uintSub
  rw [show a + UINT_MOD - b = (a - b) + UINT_MOD by omega, Nat.add_mod_right]
  exact Nat.mod_eq_of_lt (by omega)

/-- C10. Degree counts agree with the edge lists.  For an input with `n` nodes whose
edges all have `src < n` and `tgt < n` (sizes representable in `uint`, no node of total
degree `2^32` or more), after `Graph::init` and for every node `v < n`: the offset
subtractions do not underflow, `getNrOfEdges(v, OUT)` is the number of input edges with
`src == v`, `getNrOfEdges(v, IN)` the number with `tgt == v` (which is also the number
of such edges in `_in_edges`, although the offsets were counted from `_out_edges`),
`getNrOfEdges(v)` is their sum; and summing `getNrOfEdges(v)` over all nodes gives
`2 * getNrOfEdges()`. -/
theorem init_degree_counts (S : StdSort) (g : Graph NodeT) (data : GraphInData NodeT Edge)
    (hn : data.nodes.length + 1 < UINT_MOD) (hm : data.edges.length < UINT_MOD)
    (hrange : ∀ e ∈ data.edges, e.src < data.nodes.length ∧ e.tgt < data.nodes.length)
    (hdeg : ∀ v, v < data.nodes.length →
      data.edges.countP (fun e => decide (e.src = v)) +
        data.edges.countP (fun e => decide (e.tgt = v)) < UINT_MOD) :
    (∀ v, v < data.nodes.length →
      (init S g data)._out_offsets.getD v 0 ≤ (init S g data)._out_offsets.getD (v + 1) 0 ∧
      (init S g data)._in_offsets.getD v 0 ≤ (init S g data)._in_offsets.getD (v + 1) 0 ∧
      getNrOfEdgesOf (init S g data) v EdgeType.OUT =
        data.edges.countP (fun e => decide (e.src = v)) ∧
      getNrOfEdgesOf (init S g data) v EdgeType.IN =
        data.edges.countP (fun e => decide (e.tgt = v)) ∧
      getNrOfEdgesOf (init S g data) v EdgeType.IN =
        (init S g data)._in_edges.countP (fun e => decide (e.tgt = v)) ∧
      getNrOfEdgesAt (init S g data) v =
        data.edges.countP (fun e => decide (e.src = v)) +
          data.edges.countP (fun e => decide (e.tgt = v))) ∧
    ((List.range data.nodes.length).map (getNrOfEdgesAt (init S g data))).sum =
      2 * getNrOfEdges (init S g data) := by
  obtain ⟨_, _, h3, h4⟩ := init_offsets S g data hn hm
  have hB : ∀ (key : Edge → Nat) (j : Nat),
      data.edges.countP (fun e => decide (key e < j)) < UINT_MOD := fun key j =>
    lt_of_le_of_lt (List.countP_le_length _) hm
  have hout : ∀ v, v < data.nodes.length → getNrOfEdgesOf (init S g data) v EdgeType.OUT =
      data.edges.countP (fun e => decide (e.src = v)) := by
    intro v hv
    have hv1 : (v + 1) % UINT_MOD = v + 1 := Nat.mod_eq_of_lt (by omega)
    have hne : ¬ (EdgeType.OUT = EdgeType.IN) := by decide
    simp only [getNrOfEdgesOf, hne, if_false, hv1]
    rw [h3 v (by omega), h3 (v + 1) (by omega),
      uintSub_eq _ _ (countP_lt_mono _ (fun e => e.src) (Nat.le_succ v)) (hB (fun e => e.src) _),
      countP_lt_succ, Nat.add_sub_cancel_left]
  have hin : ∀ v, v < data.nodes.length → getNrOfEdgesOf (init S g data) v EdgeType.IN =
      data.edges.countP (fun e => decide (e.tgt = v)) := by
    intro v hv
    have hv1 : (v + 1) % UINT_MOD = v + 1 := Nat.mod_eq_of_lt (by omega)
    simp only [getNrOfEdgesOf, if_true, hv1]
    rw [h4 v (by omega), h4 (v + 1) (by omega),
      uintSub_eq _ _ (countP_lt_mono _ (fun e => e.tgt) (Nat.le_succ v)) (hB (fun e => e.tgt) _),
      countP_lt_succ, Nat.add_sub_cancel_left]
  have hat : ∀ v, v < data.nodes.length → getNrOfEdgesAt (init S g data) v =
      data.edges.countP (fun e => decide (e.src = v)) +
        data.edges.countP (fun e => decide (e.tgt = v)) := by
    intro v hv
    simp only [getNrOfEdgesAt, hout v hv, hin v hv]
    exact Nat.mod_eq_of_lt (hdeg v hv)
  have hpi : (init S g data)._in_edges.Perm data.edges := S.perm _ _
  refine ⟨fun v hv => ⟨?_, ?_, hout v hv, hin v hv, by rw [hin v hv, hpi.countP_eq],
    hat v hv⟩, ?_⟩
  · rw [h3 v (by omega), h3 (v + 1) (by omega)]
    exact countP_lt_mono _ (fun e => e.src) (Nat.le_succ v)
  · rw [h4 v (by omega), h4 (v + 1) (by omega)]
    exact countP_lt_mono _ (fun e => e.tgt) (Nat.le_succ v)
  · have hmap : (List.range data.nodes.length).map (getNrOfEdgesAt (init S g data)) =
        (List.range data.nodes.length).map (fun v =>
          data.edges.countP (fun e => decide (e.src = v)) +
            data.edges.countP (fun e => decide (e.tgt = v))) := by
      apply List.map_congr_left
      intro v hv
      exact hat v (List.mem_range.1 hv)
    rw [hmap, List.sum_map_add, sum_countP_eq _ (fun e => e.src), sum_countP_eq _ (fun e => e.tgt),
      countP_lt_of_all_lt _ (fun e => e.src) _ (fun e he => (hrange e he).1),
      countP_lt_of_all_lt _ (fun e => e.tgt) _ (fun e he => (hrange e he).2)]
    have hp : (init S g data)._out_edges.Perm data.edges := S.perm _ _
    simp only [getNrOfEdges, hp.length_eq, Nat.mod_eq_of_lt hm]
    omega

/-! ## The index mapper -/

theorem length_resize (v : List Nat) (n : Nat) : (resize v n).length = n := by
  simp only [resize, List.length_append, List.length_take, List.length_replicate]
  omega

theorem id_ne_of_nodup (oe : List Edge) (hnd : (oe.map Edge.id).Nodup) {i k : Nat} {e ek : Edge}
    (hi : oe[i]? = some e) (hk : oe[k]? = some ek) (hik : i ≠ k) : e.id ≠ ek.id := by
  obtain ⟨hi1, hi2⟩ := List.getElem?_eq_some.1 hi
  obtain ⟨hk1, hk2⟩ := List.getElem?_eq_some.1 hk
  intro heq
  have hi3 : i < (oe.map Edge.id).length := by simpa using hi1
  have hk3 : k < (oe.map Edge.id).length := by simpa using hk1
  have h1 : (oe.map Edge.id)[i] = (oe.map Edge.id)[k] := by
    rw [List.getElem_map, List.getElem_map, hi2, hk2, heq]
  exact hik ((hnd.getElem_inj_iff).1 h1)

theorem idLoop_succ (oe : List Edge) (k : Nat) (v0 : List Nat) :
    idLoop oe (k + 1) v0 =
      match oe[k]? with
      | some e => (idLoop oe k v0).set e.id k
      | none => idLoop oe k v0 := by
  simp only [idLoop, List.range_succ, List.foldl_append, List.foldl_cons, List.foldl_nil, idStep]

theorem idLoop_spec (oe : List Edge) (hnd : (oe.map Edge.id).Nodup) (v0 : List Nat)
    (hids : ∀ e ∈ oe, e.id < v0.length) :
    ∀ k, k ≤ oe.length →
      (idLoop oe k v0).length = v0.length ∧
      ∀ i e, i < k → oe[i]? = some e → (idLoop oe k v0).getD e.id 0 = i := by
  intro k
  induction k with
  | zero =>
    intro _
    refine ⟨rfl, ?_⟩
    intro i e hi
    omega
  | succ k ih =>
    intro hk
    obtain ⟨h1, h2⟩ := ih (by omega)
    have hk1 : k < oe.length := by omega
    have hek : oe[k]? = some oe[k] := List.getElem?_eq_getElem hk1
    rw [idLoop_succ, hek]
    refine ⟨by simp [h1], ?_⟩
    intro i e hi hie
    rw [getD_set]
    by_cases hik : i = k
    · subst hik
      rw [hek] at hie
      cases hie
      have : oe[i].id < (idLoop oe i v0).length := by
        rw [h1]; exact hids _ (List.getElem_mem _)
      simp [this]
    · have hne : e.id ≠ oe[k].id := id_ne_of_nodup oe hnd hie hek hik
      have : ¬ (oe[k].id = e.id ∧ oe[k].id < (idLoop oe k v0).length) := fun h => hne h.1.symm
      rw [if_neg this]
      exact h2 i e (by omega) hie

theorem mem_ids_of_lt (oe : List Edge) (hnd : (oe.map Edge.id).Nodup)
    (hids : ∀ e ∈ oe, e.id < oe.length) (id : Nat) (hid : id < oe.length) :
    ∃ (j : Nat) (e : Edge), oe[j]? = some e ∧ e.id = id := by
  have hsub : oe.map Edge.id ⊆ List.range oe.length := by
    intro x hx
    obtain ⟨e, he, rfl⟩ := List.mem_map.1 hx
    exact List.mem_range.2 (hids e he)
  have hperm : (oe.map Edge.id).Perm (List.range oe.length) :=
    (List.subperm_of_subset hnd hsub).perm_of_length_le (by simp)
  have hmem : id ∈ oe.map Edge.id := hperm.symm.subset (List.mem_range.2 hid)
  obtain ⟨e, he, rfl⟩ := List.mem_map.1 hmem
  obtain ⟨j, hj⟩ := List.mem_iff_getElem?.1 he
  exact ⟨j, e, hj, rfl⟩

theorem init_id_to_index (S : StdSort) (g : Graph NodeT) (data : GraphInData NodeT Edge) :
    (init S g data)._id_to_index =
      idLoop (init S g data)._out_edges ((init S g data)._out_edges.length % UINT_MOD)
        (resize g._id_to_index (data.edges.length % UINT_MOD)) := rfl

/-- C2. Edge id bijection.  For an input whose `m` edges (with `m` representable in
`uint`) carry pairwise distinct ids, each `< m`, after `Graph::init` the index mapper has
`m` entries, and for every index `i < m` and every id `< m`:
`_id_to_index[id] == i` if and only if `_out_edges[i].id == id`; consequently
`getEdge(e.id)` returns `e` for every edge `e` of the graph. -/
theorem init_id_bijection (S : StdSort) (g : Graph NodeT) (data : GraphInData NodeT Edge)
    (hm : data.edges.length < UINT_MOD)
    (hnodup : (data.edges.map Edge.id).Nodup)
    (hids : ∀ e ∈ data.edges, e.id < data.edges.length) :
    (init S g data)._id_to_index.length = data.edges.length ∧
    (∀ i id, i < data.edges.length → id < data.edges.length →
      ((init S g data)._id_to_index.getD id 0 = i ↔
        (init S g data)._out_edges[i]?.map Edge.id = some id)) ∧
    (∀ e ∈ (init S g data)._out_edges, getEdge (init S g data) e.id = some e) := by
  have hp : (init S g data)._out_edges.Perm data.edges := S.perm _ _
  have hlen : (init S g data)._out_edges.length = data.edges.length := hp.length_eq
  have hnd : ((init S g data)._out_edges.map Edge.id).Nodup :=
    ((hp.map Edge.id).nodup_iff).2 hnodup
  have hmod : data.edges.length % UINT_MOD = data.edges.length := Nat.mod_eq_of_lt hm
  have hv0 : (resize g._id_to_index (data.edges.length % UINT_MOD)).length =
      data.edges.length := by rw [length_resize, hmod]
  have hids2 : ∀ e ∈ (init S g data)._out_edges,
      e.id < (resize g._id_to_index (data.edges.length % UINT_MOD)).length := by
    intro e he
    rw [hv0]
    exact hids e (hp.subset he)
  have hids3 : ∀ e ∈ (init S g data)._out_edges, e.id < (init S g data)._out_edges.length := by
    intro e he
    rw [hlen]
    exact hids e (hp.subset he)
  obtain ⟨k1, k2⟩ := idLoop_spec (init S g data)._out_edges hnd _ hids2
    (init S g data)._out_edges.length (le_refl _)
  have hidx : (init S g data)._id_to_index =
      idLoop (init S g data)._out_edges (init S g data)._out_edges.length
        (resize g._id_to_index (data.edges.length % UINT_MOD)) := by
    rw [init_id_to_index, hlen, hmod]
  rw [← hidx] at k1 k2
  have key : ∀ i e, (init S g data)._out_edges[i]? = some e →
      (init S g data)._id_to_index.getD e.id 0 = i := by
    intro i e hie
    obtain ⟨hi, _⟩ := List.getElem?_eq_some.1 hie
    exact k2 i e hi hie
  refine ⟨by rw [k1, hv0], ?_, ?_⟩
  · intro i id hi hid
    constructor
    · intro h
      obtain ⟨j, e, hj, hje⟩ := mem_ids_of_lt _ hnd hids3 id (by rw [hlen]; exact hid)
      have := key j e hj
      rw [hje, h] at this
      rw [this, hj, Option.map_some', hje]
    · intro h
      have hi2 : i < (init S g data)._out_edges.length := by rw [hlen]; exact hi
      rw [List.getElem?_eq_getElem hi2, Option.map_some'] at h
      have h2 := key i _ (List.getElem?_eq_getElem hi2)
      rw [Option.some.inj h] at h2
      exact h2
  · intro e he
    obtain ⟨j, hj⟩ := List.mem_iff_getElem?.1 he
    unfold getEdge
    rw [key j e hj, hj]

/-! ## Running `update` a second time -/

theorem graph_ext (g1 g2 : Graph NodeT) (h1 : g1._nodes = g2._nodes)
    (h2 : g1._out_offsets = g2._out_offsets) (h3 : g1._in_offsets = g2._in_offsets)
    (h4 : g1._out_edges = g2._out_edges) (h5 : g1._in_edges = g2._in_edges)
    (h6 : g1._id_to_index = g2._id_to_index) (h7 : g1._next_id = g2._next_id) : g1 = g2 := by
  cases g1
  cases g2
  simp only at h1 h2 h3 h4 h5 h6 h7
  subst h1 h2 h3 h4 h5 h6 h7
  rfl

theorem initOffsets_congr (g1 g2 : Graph NodeT) (h1 : g1._nodes.length = g2._nodes.length)
    (h2 : g1._out_edges = g2._out_edges) :
    (initOffsets g1)._out_offsets = (initOffsets g2)._out_offsets ∧
    (initOffsets g1)._in_offsets = (initOffsets g2)._in_offsets := by
  simp only [initOffsets, offsetsLoops, h1, h2, and_self]

theorem length_foldl_idStep (oe : List Edge) (is : List Nat) :
    ∀ v : List Nat, (is.foldl (idStep oe) v).length = v.length := by
  induction is with
  | nil => intro v; rfl
  | cons i is ih =>
    intro v
    rw [List.foldl_cons, ih]
    unfold idStep
    split <;> simp

/-- The loop result depends on the initial vector only through its length and the
entries no iteration writes. -/
theorem foldl_idStep_congr (oe : List Edge) (is : List Nat) :
    ∀ v1 v2 : List Nat, v1.length = v2.length →
      (∀ p, (∀ i ∈ is, ∀ e, oe[i]? = some e → e.id ≠ p) → v1[p]? = v2[p]?) →
      is.foldl (idStep oe) v1 = is.foldl (idStep oe) v2 := by
  induction is with
  | nil =>
    intro v1 v2 _ h
    exact List.ext_getElem? (fun p => h p (by simp))
  | cons i is ih =>
    intro v1 v2 hl h
    rw [List.foldl_cons, List.foldl_cons]
    apply ih
    · unfold idStep
      split <;> simp [hl]
    · intro p hp
      unfold idStep
      cases hoe : oe[i]? with
      | none =>
        simp only
        apply h p
        intro j hj e hje
        rcases List.mem_cons.1 hj with rfl | hj2
        · rw [hoe] at hje; cases hje
        · exact hp j hj2 e hje
      | some e0 =>
        simp only [List.getElem?_set, hl]
        by_cases hpe : e0.id = p
        · simp [hpe]
        · simp only [hpe, if_false]
          apply h p
          intro j hj e hje
          rcases List.mem_cons.1 hj with rfl | hj2
          · rw [hoe] at hje; cases hje; exact hpe
          · exact hp j hj2 e hje

theorem foldl_idStep_untouched (oe : List Edge) (is : List Nat) :
    ∀ (v : List Nat) (p : Nat), (∀ i ∈ is, ∀ e, oe[i]? = some e → e.id ≠ p) →
      (is.foldl (idStep oe) v)[p]? = v[p]? := by
  induction is with
  | nil => intro v p _; rfl
  | cons i is ih =>
    intro v p hp
    rw [List.foldl_cons, ih _ p (fun j hj e hje => hp j (List.mem_cons_of_mem _ hj) e hje)]
    unfold idStep
    cases hoe : oe[i]? with
    | none => rfl
    | some e0 =>
      have : e0.id ≠ p := hp i (List.mem_cons_self _ _) e0 hoe
      simp only [List.getElem?_set, this, if_false]

theorem idLoop_idem (oe : List Edge) (k : Nat) (v : List Nat) :
    idLoop oe k (idLoop oe k v) = idLoop oe k v := by
  unfold idLoop
  exact foldl_idStep_congr oe _ _ _ (length_foldl_idStep oe _ v)
    (fun p hp => foldl_idStep_untouched oe _ v p hp)

theorem resize_self (v : List Nat) (n : Nat) (h : v.length = n) : resize v n = v := by
  subst h
  simp [resize]

theorem outKey_eq_iff (a b : Edge) :
    outKey a ≤ outKey b ∧ outKey b ≤ outKey a ↔
      a.src = b.src ∧ a.tgt = b.tgt ∧ a.weight = b.weight := by
  simp only [outKey, Prod.Lex.le_iff]
  omega

theorem inKey_eq_iff (a b : Edge) :
    inKey a ≤ inKey b ∧ inKey b ≤ inKey a ↔
      a.src = b.src ∧ a.tgt = b.tgt ∧ a.weight = b.weight := by
  simp only [inKey, Prod.Lex.le_iff]
  omega

/-- Sorting a second time changes nothing when the keys tell all edges apart. -/
theorem sort_sort_of_no_ties (S : StdSort) (edges : List Edge)
    (hties : ∀ a ∈ edges, ∀ b ∈ edges,
      a.src = b.src → a.tgt = b.tgt → a.weight = b.weight → a = b) :
    S.sort EdgeSortSrc (S.sort EdgeSortSrc edges) = S.sort EdgeSortSrc edges ∧
    S.sort EdgeSortTgt (S.sort EdgeSortTgt edges) = S.sort EdgeSortTgt edges := by
  constructor
  · refine List.Perm.eq_of_sorted ?_ (sort_out_pairwise S _) (sort_out_pairwise S _)
      (S.perm _ _)
    intro a b ha hb hab hba
    obtain ⟨h1, h2, h3⟩ := (outKey_eq_iff a b).1 ⟨hab, hba⟩
    exact hties a ((S.perm _ _).subset ((S.perm _ _).subset ha)) b ((S.perm _ _).subset hb)
      h1 h2 h3
  · refine List.Perm.eq_of_sorted ?_ (sort_in_pairwise S _) (sort_in_pairwise S _)
      (S.perm _ _)
    intro a b ha hb hab hba
    obtain ⟨h1, h2, h3⟩ := (inKey_eq_iff a b).1 ⟨hab, hba⟩
    exact hties a ((S.perm _ _).subset ((S.perm _ _).subset ha)) b ((S.perm _ _).subset hb)
      h1 h2 h3

/-- When the keys tell all input edges apart, a second `update()` changes nothing. -/
theorem update_idempotent_of_no_ties (S : StdSort) (g : Graph NodeT)
    (data : GraphInData NodeT Edge)
    (hties : ∀ a ∈ data.edges, ∀ b ∈ data.edges,
      a.src = b.src → a.tgt = b.tgt → a.weight = b.weight → a = b) :
    update S (init S g data) = init S g data := by
  obtain ⟨ho, hi⟩ := sort_sort_of_no_ties S data.edges hties
  have e4 : (update S (init S g data))._out_edges = (init S g data)._out_edges := ho
  have e5 : (update S (init S g data))._in_edges = (init S g data)._in_edges := hi
  have hc := initOffsets_congr (sortInEdges S (sortOutEdges S (init S g data)))
    (initSorted S g data) rfl ho
  have e6 : (update S (init S g data))._id_to_index = (init S g data)._id_to_index := by
    show idLoop (S.sort EdgeSortSrc (S.sort EdgeSortSrc data.edges))
        ((S.sort EdgeSortSrc (S.sort EdgeSortSrc data.edges)).length % UINT_MOD)
        (resize (init S g data)._id_to_index (data.edges.length % UINT_MOD)) =
      (init S g data)._id_to_index
    have hl : (init S g data)._id_to_index.length = data.edges.length % UINT_MOD := by
      rw [init_id_to_index]
      unfold idLoop
      rw [length_foldl_idStep, length_resize]
    rw [resize_self _ _ hl, ho]
    rw [init_id_to_index]
    exact idLoop_idem _ _ _
  exact graph_ext _ _ rfl hc.1 hc.2 e4 e5 e6 rfl

theorem incrAt_comm (o : List Nat) (i j : Nat) :
    incrAt (incrAt o i) j = incrAt (incrAt o j) i := by
  by_cases hij : i = j
  · subst hij; rfl
  · have h1 : (o.set i ((o.getD i 0 + 1) % UINT_MOD)).getD j 0 = o.getD j 0 := by
      rw [getD_set, if_neg (fun h => hij h.1)]
    have h2 : (o.set j ((o.getD j 0 + 1) % UINT_MOD)).getD i 0 = o.getD i 0 := by
      rw [getD_set, if_neg (fun h => hij h.1.symm)]
    unfold incrAt
    rw [h1, h2]
    exact List.set_comm _ _ _ hij

/-- The counting loop does not depend on the order of the edges. -/
theorem countLoop_perm {l1 l2 : List Edge} (h : l1.Perm l2) (offs : List Nat × List Nat) :
    countLoop l1 offs = countLoop l2 offs := by
  unfold countLoop
  haveI : RightCommutative (fun (st : List Nat × List Nat) (edge : Edge) =>
      (incrAt st.1 edge.src, incrAt st.2 edge.tgt)) :=
    ⟨fun st a b => Prod.ext (incrAt_comm st.1 a.src b.src) (incrAt_comm st.2 a.tgt b.tgt)⟩
  exact h.foldl_eq offs

theorem initOffsets_perm (g1 g2 : Graph NodeT) (h1 : g1._nodes.length = g2._nodes.length)
    (h2 : g1._out_edges.Perm g2._out_edges) :
    (initOffsets g1)._out_offsets = (initOffsets g2)._out_offsets ∧
    (initOffsets g1)._in_offsets = (initOffsets g2)._in_offsets := by
  simp only [initOffsets, offsetsLoops, h1, countLoop_perm h2, and_self]

/-- Sorting a second time leaves the sequence of sort keys as it is. -/
theorem sort_sort_keys (S : StdSort) (edges : List Edge) :
    (S.sort EdgeSortSrc (S.sort EdgeSortSrc edges)).map outKey =
      (S.sort EdgeSortSrc edges).map outKey ∧
    (S.sort EdgeSortTgt (S.sort EdgeSortTgt edges)).map inKey =
      (S.sort EdgeSortTgt edges).map inKey := by
  constructor
  · exact List.eq_of_perm_of_sorted ((S.perm _ _).map outKey)
      (List.pairwise_map.2 (sort_out_pairwise S _)) (List.pairwise_map.2 (sort_out_pairwise S _))
  · exact List.eq_of_perm_of_sorted ((S.perm _ _).map inKey)
      (List.pairwise_map.2 (sort_in_pairwise S _)) (List.pairwise_map.2 (sort_in_pairwise S _))

/-- C4 (amended). A second `update()` on a graph state produced by `Graph::init`, with
no mutation in between and whatever conforming `std::sort` is used: `_out_offsets` and
`_in_offsets` are identical to their values before the call; `_out_edges` and
`_in_edges` hold the same edges with the same sequence of sort keys, so they can differ
from before only in the order of edges that agree on `(src, tgt, weight)`; and when no
two distinct input edges agree on `(src, tgt, weight)`, `_out_edges`, `_in_edges` and
`_id_to_index` are identical too, the whole state being unchanged. -/
theorem update_after_init (S : StdSort) (g : Graph NodeT) (data : GraphInData NodeT Edge) :
    (update S (init S g data))._out_offsets = (init S g data)._out_offsets ∧
    (update S (init S g data))._in_offsets = (init S g data)._in_offsets ∧
    (update S (init S g data))._out_edges.map outKey = (init S g data)._out_edges.map outKey ∧
    (update S (init S g data))._in_edges.map inKey = (init S g data)._in_edges.map inKey ∧
    (update S (init S g data))._out_edges.Perm (init S g data)._out_edges ∧
    (update S (init S g data))._in_edges.Perm (init S g data)._in_edges ∧
    ((∀ a ∈ data.edges, ∀ b ∈ data.edges,
        a.src = b.src → a.tgt = b.tgt → a.weight = b.weight → a = b) →
      update S (init S g data) = init S g data) := by
  have hp : (sortInEdges S (sortOutEdges S (init S g data)))._out_edges.Perm
      (initSorted S g data)._out_edges := S.perm _ _
  have hc := initOffsets_perm (sortInEdges S (sortOutEdges S (init S g data)))
    (initSorted S g data) rfl hp
  obtain ⟨hk1, hk2⟩ := sort_sort_keys S data.edges
  exact ⟨hc.1, hc.2, hk1, hk2, S.perm _ _, S.perm _ _,
    update_idempotent_of_no_ties S g data⟩

/-- C3. After `Graph::init`, whatever conforming `std::sort` is linked in and whatever
the graph held before, `_out_edges` is sorted non-decreasingly by `(src, tgt, weight)`,
`_in_edges` is sorted non-decreasingly by `(tgt, src, weight)`, both are permutations
of the input edge list, and hence of each other. -/
theorem init_sorted_and_same_edges (S : StdSort) (g : Graph NodeT)
    (data : GraphInData NodeT Edge) :
    (init S g data)._out_edges.Pairwise (fun a b => outKey a ≤ outKey b) ∧
    (init S g data)._in_edges.Pairwise (fun a b => inKey a ≤ inKey b) ∧
    (init S g data)._out_edges.Perm data.edges ∧
    (init S g data)._in_edges.Perm data.edges ∧
    (init S g data)._out_edges.Perm (init S g data)._in_edges := by
  rw [init_out_edges, init_in_edges]
  exact ⟨sort_out_pairwise S _, sort_in_pairwise S _, S.perm _ _, S.perm _ _,
    (S.perm _ _).trans (S.perm _ _).symm⟩

end Graph

/-! ## The reader driver -/

theorem readNodeStep_logged {σ NodeR EdgeR NodeT : Type} (impl : ReaderImpl σ NodeR EdgeR)
    (castNode : NodeR → NodeT) (st : List NodeT × σ × List (ReaderCall NodeR EdgeR)) (i : Nat) :
    readNodeStep impl.logged castNode st i =
      (st.1 ++ [castNode (impl.readNode i st.2.1).1],
        ((impl.readNode i st.2.1).2, st.2.2 ++ [ReaderCall.readNode i (impl.readNode i st.2.1).1])) :=
  rfl

theorem readNodeStep_eq {σ NodeR EdgeR NodeT : Type} (impl : ReaderImpl σ NodeR EdgeR)
    (castNode : NodeR → NodeT) (st : List NodeT × σ) (i : Nat) :
    readNodeStep impl castNode st i =
      (st.1 ++ [castNode (impl.readNode i st.2).1], (impl.readNode i st.2).2) := rfl

theorem readEdgeStep_logged {σ NodeR EdgeR EdgeT : Type} (impl : ReaderImpl σ NodeR EdgeR)
    (castEdge : EdgeR → EdgeT) (st : List EdgeT × σ × List (ReaderCall NodeR EdgeR)) (i : Nat) :
    readEdgeStep impl.logged castEdge st i =
      (st.1 ++ [castEdge (impl.readEdge i st.2.1).1],
        ((impl.readEdge i st.2.1).2, st.2.2 ++ [ReaderCall.readEdge i (impl.readEdge i st.2.1).1])) :=
  rfl

theorem readEdgeStep_eq {σ NodeR EdgeR EdgeT : Type} (impl : ReaderImpl σ NodeR EdgeR)
    (castEdge : EdgeR → EdgeT) (st : List EdgeT × σ) (i : Nat) :
    readEdgeStep impl castEdge st i =
      (st.1 ++ [castEdge (impl.readEdge i st.2).1], (impl.readEdge i st.2).2) := rfl

theorem readNodes_logged {σ NodeR EdgeR NodeT : Type} (impl : ReaderImpl σ NodeR EdgeR)
    (castNode : NodeR → NodeT) (acc : List NodeT) (s : σ) (log : List (ReaderCall NodeR EdgeR)) :
    ∀ k, ∃ ns : List NodeR, ns.length = k ∧
      ((List.range k).foldl (readNodeStep impl.logged castNode) (acc, (s, log))).1 =
        acc ++ ns.map castNode ∧
      ((List.range k).foldl (readNodeStep impl.logged castNode) (acc, (s, log))).2.2 =
        log ++ ns.enum.map (fun x => ReaderCall.readNode x.1 x.2) ∧
      ((List.range k).foldl (readNodeStep impl.logged castNode) (acc, (s, log))).1 =
        ((List.range k).foldl (readNodeStep impl castNode) (acc, s)).1 ∧
      ((List.range k).foldl (readNodeStep impl.logged castNode) (acc, (s, log))).2.1 =
        ((List.range k).foldl (readNodeStep impl castNode) (acc, s)).2 := by
  intro k
  induction k with
  | zero => exact ⟨[], rfl, by simp, by simp, rfl, rfl⟩
  | succ k ih =>
    obtain ⟨ns, h1, h2, h3, h4, h5⟩ := ih
    refine ⟨ns ++ [(impl.readNode k
      ((List.range k).foldl (readNodeStep impl castNode) (acc, s)).2).1], ?_, ?_, ?_, ?_, ?_⟩
    · simp [h1]
    · simp only [List.range_succ, List.foldl_append, List.foldl_cons, List.foldl_nil,
        readNodeStep_logged, h2, h5, List.map_append, List.map_cons, List.map_nil,
        List.append_assoc]
    · simp only [List.range_succ, List.foldl_append, List.foldl_cons, List.foldl_nil,
        readNodeStep_logged, h3, h5, List.enum_append, List.map_append,
        List.enumFrom_cons, List.enumFrom_nil, List.map_cons, List.map_nil, h1,
        List.append_assoc]
    · simp only [List.range_succ, List.foldl_append, List.foldl_cons, List.foldl_nil]
      rw [readNodeStep_logged, readNodeStep_eq, h4, h5]
    · simp only [List.range_succ, List.foldl_append, List.foldl_cons, List.foldl_nil]
      rw [readNodeStep_logged, readNodeStep_eq, h5]

theorem readEdges_logged {σ NodeR EdgeR EdgeT : Type} (impl : ReaderImpl σ NodeR EdgeR)
    (castEdge : EdgeR → EdgeT) (acc : List EdgeT) (s : σ) (log : List (ReaderCall NodeR EdgeR)) :
    ∀ k, ∃ es : List EdgeR, es.length = k ∧
      ((List.range k).foldl (readEdgeStep impl.logged castEdge) (acc, (s, log))).1 =
        acc ++ es.map castEdge ∧
      ((List.range k).foldl (readEdgeStep impl.logged castEdge) (acc, (s, log))).2.2 =
        log ++ es.enum.map (fun x => ReaderCall.readEdge x.1 x.2) ∧
      ((List.range k).foldl (readEdgeStep impl.logged castEdge) (acc, (s, log))).1 =
        ((List.range k).foldl (readEdgeStep impl castEdge) (acc, s)).1 ∧
      ((List.range k).foldl (readEdgeStep impl.logged castEdge) (acc, (s, log))).2.1 =
        ((List.range k).foldl (readEdgeStep impl castEdge) (acc, s)).2 := by
  intro k
  induction k with
  | zero => exact ⟨[], rfl, by simp, by simp, rfl, rfl⟩
  | succ k ih =>
    obtain ⟨es, h1, h2, h3, h4, h5⟩ := ih
    refine ⟨es ++ [(impl.readEdge k
      ((List.range k).foldl (readEdgeStep impl castEdge) (acc, s)).2).1], ?_, ?_, ?_, ?_, ?_⟩
    · simp [h1]
    · simp only [List.range_succ, List.foldl_append, List.foldl_cons, List.foldl_nil,
        readEdgeStep_logged, h2, h5, List.map_append, List.map_cons, List.map_nil,
        List.append_assoc]
    · simp only [List.range_succ, List.foldl_append, List.foldl_cons, List.foldl_nil,
        readEdgeStep_logged, h3, h5, List.enum_append, List.map_append,
        List.enumFrom_cons, List.enumFrom_nil, List.map_cons, List.map_nil, h1,
        List.append_assoc]
    · simp only [List.range_succ, List.foldl_append, List.foldl_cons, List.foldl_nil]
      rw [readEdgeStep_logged, readEdgeStep_eq, h4, h5]
    · simp only [List.range_succ, List.foldl_append, List.foldl_cons, List.foldl_nil]
      rw [readEdgeStep_logged, readEdgeStep_eq, h5]

/-- C6. Reader contract.  For every reader implementation, started in any state `is`,
whose `readHeader` yields `(n_nodes, n_edges)`: `SimpleReader::readGraph` calls
`readHeader` once, first, then `readNode(i)` once for each `i = 0 .. n_nodes - 1` in
ascending order, then `readEdge(i)` once for each `i = 0 .. n_edges - 1` in ascending
order, and makes no other call; the returned data has exactly `n_nodes` nodes and
`n_edges` edges, `nodes[i]` being the converted result of `readNode(i)` and `edges[i]`
the converted result of `readEdge(i)`.  Logging the calls does not change the result. -/
theorem readGraph_contract {σ NodeR EdgeR NodeT EdgeT : Type} (impl : ReaderImpl σ NodeR EdgeR)
    (castNode : NodeR → NodeT) (castEdge : EdgeR → EdgeT) (is : σ) :
    ∃ (ns : List NodeR) (es : List EdgeR),
      ns.length = (impl.readHeader is).1.1 ∧
      es.length = (impl.readHeader is).1.2 ∧
      (SimpleReader.readGraph impl.logged castNode castEdge (is, [])).2.2 =
        [ReaderCall.readHeader (impl.readHeader is).1.1 (impl.readHeader is).1.2] ++
          ns.enum.map (fun x => ReaderCall.readNode x.1 x.2) ++
          es.enum.map (fun x => ReaderCall.readEdge x.1 x.2) ∧
      (SimpleReader.readGraph impl castNode castEdge is).1.nodes = ns.map castNode ∧
      (SimpleReader.readGraph impl castNode castEdge is).1.edges = es.map castEdge ∧
      (SimpleReader.readGraph impl.logged castNode castEdge (is, [])).1 =
        (SimpleReader.readGraph impl castNode castEdge is).1 ∧
      (SimpleReader.readGraph impl.logged castNode castEdge (is, [])).2.1 =
        (SimpleReader.readGraph impl castNode castEdge is).2 := by
  obtain ⟨ns, n1, n2, n3, n4, n5⟩ := readNodes_logged impl castNode [] (impl.readHeader is).2
    [ReaderCall.readHeader (impl.readHeader is).1.1 (impl.readHeader is).1.2]
    (impl.readHeader is).1.1
  obtain ⟨es, e1, e2, e3, e4, e5⟩ := readEdges_logged impl castEdge []
    ((List.range (impl.readHeader is).1.1).foldl (readNodeStep impl castNode)
      ([], (impl.readHeader is).2)).2
    ([ReaderCall.readHeader (impl.readHeader is).1.1 (impl.readHeader is).1.2] ++
      ns.enum.map (fun x => ReaderCall.readNode x.1 x.2))
    (impl.readHeader is).1.2
  have hhdr : impl.logged.readHeader (is, []) =
      ((impl.readHeader is).1, ((impl.readHeader is).2,
        [ReaderCall.readHeader (impl.readHeader is).1.1 (impl.readHeader is).1.2])) := rfl
  have hstate : ((List.range (impl.readHeader is).1.1).foldl
      (readNodeStep impl.logged castNode)
      ([], ((impl.readHeader is).2,
        [ReaderCall.readHeader (impl.readHeader is).1.1 (impl.readHeader is).1.2]))).2 =
      (((List.range (impl.readHeader is).1.1).foldl (readNodeStep impl castNode)
        ([], (impl.readHeader is).2)).2,
       [ReaderCall.readHeader (impl.readHeader is).1.1 (impl.readHeader is).1.2] ++
        ns.enum.map (fun x => ReaderCall.readNode x.1 x.2)) :=
    Prod.ext n5 n3
  refine ⟨ns, es, n1, e1, ?_, ?_, ?_, ?_, ?_⟩
  · simp only [SimpleReader.readGraph, hhdr, hstate]
    exact e3
  · simp only [SimpleReader.readGraph]
    rw [← n4, n2, List.nil_append]
  · simp only [SimpleReader.readGraph]
    rw [← e4, e2, List.nil_append]
  · simp only [SimpleReader.readGraph, hhdr, hstate, n4, e4]
  · simp only [SimpleReader.readGraph, hhdr, hstate]
    exact e5

/-! ## The writer driver -/

theorem writeNodes_fold {σ NodeW EdgeW NodeT : Type} (impl : WriterImpl σ NodeW EdgeW)
    (castNode : CHNode NodeT → NodeW) (levels : List Nat) :
    ∀ (nodes : List NodeT) (s : σ) (c : Nat), c + nodes.length < UINT_MOD →
      (nodes.foldl (writeNodeStep impl castNode levels) (s, c)).1 =
        ((List.enumFrom c nodes).map (fun x =>
          WriterCall.writeNode (castNode (makeCHNode x.2 (levels.getD x.1 0))) x.1)).foldl
          (WriterCall.perform impl) s := by
  intro nodes
  induction nodes with
  | nil => intro s c _; rfl
  | cons a t ih =>
    intro s c hc
    simp only [List.length_cons] at hc
    have hc1 : (c + 1) % UINT_MOD = c + 1 := Nat.mod_eq_of_lt (by omega)
    simp only [List.foldl_cons, List.enumFrom_cons, List.map_cons, writeNodeStep, hc1]
    rw [ih _ (c + 1) (by omega)]
    rfl

theorem writeEdges_fold {σ NodeW EdgeW EdgeT : Type} (impl : WriterImpl σ NodeW EdgeW)
    (castEdge : EdgeT → EdgeW) :
    ∀ (edges : List EdgeT) (s : σ) (c : Nat), c + edges.length < UINT_MOD →
      (edges.foldl (writeEdgeStep impl castEdge) (s, c)).1 =
        ((List.enumFrom c edges).map (fun x => WriterCall.writeEdge (castEdge x.2) x.1)).foldl
          (WriterCall.perform impl) s := by
  intro edges
  induction edges with
  | nil => intro s c _; rfl
  | cons a t ih =>
    intro s c hc
    simp only [List.length_cons] at hc
    have hc1 : (c + 1) % UINT_MOD = c + 1 := Nat.mod_eq_of_lt (by omega)
    simp only [List.foldl_cons, List.enumFrom_cons, List.map_cons, writeEdgeStep, hc1]
    rw [ih _ (c + 1) (by omega)]
    rfl

/-- Reading the level by index is pairing each node with the level at its position. -/
theorem enumFrom_levels {NodeT β : Type} (F : NodeT → Nat → Nat → β) (levels : List Nat) :
    ∀ (nodes : List NodeT) (c : Nat), c + nodes.length ≤ levels.length →
      (List.enumFrom c nodes).map (fun x => F x.2 (levels.getD x.1 0) x.1) =
        (List.enumFrom c (nodes.zip (levels.drop c))).map (fun x => F x.2.1 x.2.2 x.1) := by
  intro nodes
  induction nodes with
  | nil => intro c _; rfl
  | cons a t ih =>
    intro c hc
    simp only [List.length_cons] at hc
    have hlt : c < levels.length := by omega
    rw [List.drop_eq_getElem_cons hlt]
    simp only [List.enumFrom_cons, List.map_cons, List.zip_cons_cons]
    rw [ih (c + 1) (by omega), List.getD_eq_getElem levels 0 hlt]

theorem foldl_perform_logWriter {NodeW EdgeW : Type} (calls : List (WriterCall NodeW EdgeW)) :
    ∀ s : List (WriterCall NodeW EdgeW),
      calls.foldl (WriterCall.perform (logWriter NodeW EdgeW)) s = s ++ calls := by
  induction calls with
  | nil => intro s; simp
  | cons a t ih =>
    intro s
    rw [List.foldl_cons, ih]
    cases a <;> simp [WriterCall.perform, logWriter]

/-- C7. Writer contract.  For every `GraphCHOutData` with `|node_levels| >= |nodes|`
(sizes representable in `uint`), on every writer implementation `writeCHGraph` has the
effect of exactly the call sequence `writerContractCalls`, in that order:
`writeHeader(|nodes|, |edges|)`, then for `i = 0 .. |nodes| - 1`
`writeNode(node i paired with node_levels[i], i)`, then for `i = 0 .. |edges| - 1`
`writeEdge(edges[i], i)`; a writer that records its calls records exactly this list. -/
theorem writeCHGraph_contract {σ NodeW EdgeW NodeT EdgeT : Type}
    (impl : WriterImpl σ NodeW EdgeW)
    (castNode : CHNode NodeT → NodeW) (castEdge : EdgeT → EdgeW)
    (data : GraphCHOutData NodeT EdgeT) (os : σ)
    (hn : data.nodes.length < UINT_MOD) (he : data.edges.length < UINT_MOD)
    (hl : data.nodes.length ≤ data.node_levels.length) :
    SimpleWriter.writeCHGraph impl castNode castEdge data os =
      (writerContractCalls castNode castEdge data).foldl (WriterCall.perform impl) os ∧
    SimpleWriter.writeCHGraph (logWriter NodeW EdgeW) castNode castEdge data [] =
      writerContractCalls castNode castEdge data := by
  have key : ∀ {τ : Type} (im : WriterImpl τ NodeW EdgeW) (s : τ),
      SimpleWriter.writeCHGraph im castNode castEdge data s =
      (writerContractCalls castNode castEdge data).foldl (WriterCall.perform im) s := by
    intro τ im s
    have h1 := enumFrom_levels
      (fun nd lv i => (WriterCall.writeNode (castNode (makeCHNode nd lv)) i : WriterCall NodeW EdgeW))
      data.node_levels data.nodes 0 (by omega)
    simp only [List.drop_zero] at h1
    simp only [SimpleWriter.writeCHGraph, Nat.mod_eq_of_lt hn, Nat.mod_eq_of_lt he]
    rw [writeEdges_fold im castEdge data.edges _ 0 (by omega),
      writeNodes_fold im castNode data.node_levels data.nodes _ 0 (by omega), h1]
    simp only [writerContractCalls, List.enum, List.foldl_append, List.foldl_cons,
      List.foldl_nil]
    rfl
  refine ⟨key impl os, ?_⟩
  rw [key (logWriter NodeW EdgeW) [], foldl_perform_logWriter, List.nil_append]

/-! ## `main` -/

theorem mainLoop_cons {SS : Type} (env : MainEnv SS) (r : GetoptResult)
    (rest : List GetoptResult) (vars : MainVars SS) :
    mainLoop env (r :: rest) vars =
      if r.iarg = 'h' then Except.error 0
      else if r.iarg = 'i' then
        mainLoop env rest
          { vars with ss := env.ss_clear vars.ss, infile := r.optarg.getD "" }
      else if r.iarg = 'f' then
        mainLoop env rest
          { vars with ss := env.ss_clear vars.ss,
                      informat := env.toFileFormat (r.optarg.getD "") }
      else if r.iarg = 'o' then
        mainLoop env rest
          { vars with ss := env.ss_clear vars.ss, outfile := r.optarg.getD "" }
      else if r.iarg = 'g' then
        mainLoop env rest
          { vars with ss := env.ss_clear vars.ss,
                      outformat := env.toFileFormat (r.optarg.getD "") }
      else if r.iarg = 't' then
        mainLoop env rest
          { vars with
            ss := (env.ss_extract (env.ss_insert (env.ss_clear vars.ss) r.optarg)
              vars.nr_of_threads).1
            nr_of_threads := (env.ss_extract (env.ss_insert (env.ss_clear vars.ss) r.optarg)
              vars.nr_of_threads).2 }
      else Except.error 1 := rfl

/-- Without `-i` and `-h` the loop either returns 1 or leaves `infile` as it was. -/
theorem mainLoop_no_infile {SS : Type} (env : MainEnv SS) :
    ∀ (opts : List GetoptResult) (vars : MainVars SS),
      (∀ r ∈ opts, r.iarg ≠ 'i' ∧ r.iarg ≠ 'h') →
      mainLoop env opts vars = Except.error 1 ∨
        ∃ vars2, mainLoop env opts vars = Except.ok vars2 ∧ vars2.infile = vars.infile := by
  intro opts
  induction opts with
  | nil => intro vars _; exact Or.inr ⟨vars, rfl, rfl⟩
  | cons r rest ih =>
    intro vars h
    have hr := h r (List.mem_cons_self _ _)
    have hrest : ∀ x ∈ rest, x.iarg ≠ 'i' ∧ x.iarg ≠ 'h' :=
      fun x hx => h x (List.mem_cons_of_mem _ hx)
    rw [mainLoop_cons, if_neg hr.2, if_neg hr.1]
    split_ifs
    · exact ih _ hrest
    · exact ih _ hrest
    · exact ih _ hrest
    · exact ih _ hrest
    · exact Or.inl rfl

/-- An unknown option that no `-h` precedes makes the loop return 1. -/
theorem mainLoop_unknown {SS : Type} (env : MainEnv SS) (r : GetoptResult)
    (post : List GetoptResult) (hr : unknownOption r.iarg) :
    ∀ (pre : List GetoptResult) (vars : MainVars SS),
      (∀ x ∈ pre, x.iarg ≠ 'h') →
      mainLoop env (pre ++ r :: post) vars = Except.error 1 := by
  intro pre
  induction pre with
  | nil =>
    intro vars _
    obtain ⟨h1, h2, h3, h4, h5, h6⟩ := hr
    rw [List.nil_append, mainLoop_cons, if_neg h1, if_neg h2, if_neg h3, if_neg h4, if_neg h5,
      if_neg h6]
  | cons x pre ih =>
    intro vars h
    have hx := h x (List.mem_cons_self _ _)
    have hpre : ∀ y ∈ pre, y.iarg ≠ 'h' := fun y hy => h y (List.mem_cons_of_mem _ hy)
    rw [List.cons_append, mainLoop_cons, if_neg hx]
    split_ifs
    · exact ih _ hpre
    · exact ih _ hpre
    · exact ih _ hpre
    · exact ih _ hpre
    · exact ih _ hpre
    · rfl

/-- Without `-f`, `-o`, `-g` and `-t` the loop leaves the four defaults untouched. -/
theorem mainLoop_defaults {SS : Type} (env : MainEnv SS) :
    ∀ (opts : List GetoptResult) (vars vars2 : MainVars SS),
      (∀ r ∈ opts, r.iarg ≠ 'f' ∧ r.iarg ≠ 'o' ∧ r.iarg ≠ 'g' ∧ r.iarg ≠ 't') →
      mainLoop env opts vars = Except.ok vars2 →
      vars2.informat = vars.informat ∧ vars2.outfile = vars.outfile ∧
        vars2.outformat = vars.outformat ∧ vars2.nr_of_threads = vars.nr_of_threads := by
  intro opts
  induction opts with
  | nil =>
    intro vars vars2 _ h
    cases h
    exact ⟨rfl, rfl, rfl, rfl⟩
  | cons r rest ih =>
    intro vars vars2 h hl
    obtain ⟨h1, h2, h3, h4⟩ := h r (List.mem_cons_self _ _)
    have hrest : ∀ x ∈ rest, x.iarg ≠ 'f' ∧ x.iarg ≠ 'o' ∧ x.iarg ≠ 'g' ∧ x.iarg ≠ 't' :=
      fun x hx => h x (List.mem_cons_of_mem _ hx)
    rw [mainLoop_cons, if_neg h1, if_neg h2, if_neg h3, if_neg h4] at hl
    split_ifs at hl
    · have h5 := ih _ vars2 hrest hl
      exact h5

theorem main_of_loop_error {SS : Type} (env : MainEnv SS)
    (rg : ReadCall → Except String Unit) (opts : List GetoptResult) (status : Int)
    (h : mainLoop env opts (MainVars.initial env) = Except.error status) :
    main env rg opts = { call := none, termination := Termination.returned status } := by
  simp only [main, h]

theorem main_of_loop_ok {SS : Type} (env : MainEnv SS)
    (rg : ReadCall → Except String Unit) (opts : List GetoptResult) (vars : MainVars SS)
    (h : mainLoop env opts (MainVars.initial env) = Except.ok vars) :
    main env rg opts =
      if vars.infile = "" then { call := none, termination := Termination.returned 1 }
      else
        match rg { outformat := vars.outformat, informat := vars.informat,
                   infile := vars.infile,
                   f := { outformat := vars.outformat, outfile := vars.outfile,
                          nr_of_threads := vars.nr_of_threads } } with
        | Except.error msg =>
          { call := some { outformat := vars.outformat, informat := vars.informat,
                           infile := vars.infile,
                           f := { outformat := vars.outformat, outfile := vars.outfile,
                                  nr_of_threads := vars.nr_of_threads } },
            termination := Termination.aborted msg }
        | Except.ok _ =>
          { call := some { outformat := vars.outformat, informat := vars.informat,
                           infile := vars.infile,
                           f := { outformat := vars.outformat, outfile := vars.outfile,
                                  nr_of_threads := vars.nr_of_threads } },
            termination := Termination.returned 0 } := by
  simp only [main, h]

/-- C9 (amended). CLI argument errors.  (1) For every sequence of options with no
`-i` (`--infile`) and no `-h`, `main` returns 1 without calling `readGraphForWriteFormat`.
(2) For every sequence of options containing an unknown option that no `-h` precedes,
`main` returns 1, again without reading.  (3) With none of `-f`, `-o`, `-g`, `-t`, whenever
`main` gets to read, it uses informat FMI, outformat FMI_CH, outfile "ch_out.graph" and
1 thread. -/
theorem main_argument_errors {SS : Type} (env : MainEnv SS)
    (rg : ReadCall → Except String Unit) :
    (∀ opts : List GetoptResult, (∀ r ∈ opts, r.iarg ≠ 'i' ∧ r.iarg ≠ 'h') →
      main env rg opts = { call := none, termination := Termination.returned 1 }) ∧
    (∀ (pre : List GetoptResult) (r : GetoptResult) (post : List GetoptResult),
      (∀ x ∈ pre, x.iarg ≠ 'h') → unknownOption r.iarg →
      main env rg (pre ++ r :: post) =
        { call := none, termination := Termination.returned 1 }) ∧
    (∀ (opts : List GetoptResult) (c : ReadCall),
      (∀ r ∈ opts, r.iarg ≠ 'f' ∧ r.iarg ≠ 'o' ∧ r.iarg ≠ 'g' ∧ r.iarg ≠ 't') →
      (main env rg opts).call = some c →
      c.informat = FileFormat.FMI ∧ c.outformat = FileFormat.FMI_CH ∧
        c.f = { outformat := FileFormat.FMI_CH, outfile := "ch_out.graph",
                nr_of_threads := 1 }) := by
  refine ⟨?_, ?_, ?_⟩
  · intro opts h
    rcases mainLoop_no_infile env opts (MainVars.initial env) h with h1 | ⟨vars2, h1, h2⟩
    · exact main_of_loop_error env rg opts 1 h1
    · rw [main_of_loop_ok env rg opts vars2 h1]
      have h3 : vars2.infile = "" := h2
      rw [if_pos h3]
  · intro pre r post hpre hr
    exact main_of_loop_error env rg _ 1 (mainLoop_unknown env r post hr pre _ hpre)
  · intro opts c h hc
    cases hl : mainLoop env opts (MainVars.initial env) with
    | error status =>
      rw [main_of_loop_error env rg opts status hl] at hc
      cases hc
    | ok vars =>
      obtain ⟨d1, d2, d3, d4⟩ := mainLoop_defaults env opts _ vars h hl
      rw [main_of_loop_ok env rg opts vars hl] at hc
      have e1 : vars.informat = FileFormat.FMI := d1
      have e2 : vars.outfile = "ch_out.graph" := d2
      have e3 : vars.outformat = FileFormat.FMI_CH := d3
      have e4 : vars.nr_of_threads = 1 := d4
      by_cases hi : vars.infile = ""
      · rw [if_pos hi] at hc
        cases hc
      · rw [if_neg hi] at hc
        split at hc
        · simp only [Option.some.injEq] at hc
          subst hc
          simp [e1, e2, e3, e4]
        · simp only [Option.some.injEq] at hc
          subst hc
          simp [e1, e2, e3, e4]

/-- C9, witness: `-o x` alone; `-i g` followed by an unknown option; `-i in.graph`
alone. -/
theorem main_argument_errors_witness :
    main exampleEnv (readGraphForWriteFormat exampleWorld)
        [{ iarg := 'o', optarg := some "x" }] =
      { call := none, termination := Termination.returned 1 } ∧
    main exampleEnv (readGraphForWriteFormat exampleWorld)
        ([{ iarg := 'i', optarg := some "g" }] ++ { iarg := '?', optarg := none } :: []) =
      { call := none, termination := Termination.returned 1 } ∧
    ((main exampleEnv (readGraphForWriteFormat exampleWorld)
        [{ iarg := 'i', optarg := some "in.graph" }]).call =
      some { outformat := FileFormat.FMI_CH, informat := FileFormat.FMI, infile := "in.graph",
             f := { outformat := FileFormat.FMI_CH, outfile := "ch_out.graph",
                    nr_of_threads := 1 } }) ∧
    FileFormat.FMI = FileFormat.FMI ∧ FileFormat.FMI_CH = FileFormat.FMI_CH ∧
      ({ outformat := FileFormat.FMI_CH, outfile := "ch_out.graph", nr_of_threads := 1 } :
          BuildAndStoreCHGraph) =
        { outformat := FileFormat.FMI_CH, outfile := "ch_out.graph", nr_of_threads := 1 } :=
  ⟨(main_argument_errors exampleEnv (readGraphForWriteFormat exampleWorld)).1
      [{ iarg := 'o', optarg := some "x" }] (by decide),
    (main_argument_errors exampleEnv (readGraphForWriteFormat exampleWorld)).2.1
      [{ iarg := 'i', optarg := some "g" }] { iarg := '?', optarg := none } []
      (by decide) (by decide),
    rfl,
    (main_argument_errors exampleEnv (readGraphForWriteFormat exampleWorld)).2.2
      [{ iarg := 'i', optarg := some "in.graph" }]
      { outformat := FileFormat.FMI_CH, informat := FileFormat.FMI, infile := "in.graph",
        f := { outformat := FileFormat.FMI_CH, outfile := "ch_out.graph", nr_of_threads := 1 } }
      (by decide) rfl⟩

/-- C9, counterexample: the option sequence `-h -x` contains an unknown option, yet
`main` returns 0 (it stops at `-h`). -/
theorem main_help_before_unknown_option :
    (∃ r ∈ [({ iarg := 'h', optarg := none } : GetoptResult), { iarg := '?', optarg := none }],
      unknownOption r.iarg) ∧
    (main exampleEnv (readGraphForWriteFormat exampleWorld)
      [{ iarg := 'h', optarg := none }, { iarg := '?', optarg := none }]).termination =
        Termination.returned 0 ∧
    (main exampleEnv (readGraphForWriteFormat exampleWorld)
      [{ iarg := 'h', optarg := none }, { iarg := '?', optarg := none }]).termination ≠
        Termination.returned 1 := by
  refine ⟨⟨{ iarg := '?', optarg := none }, by simp, by decide⟩, rfl, ?_⟩
  intro h
  cases h

/-- C8 (amended). I/O failure.  Whenever the options `main` parsed name an input file
that cannot be opened, `SimpleReader::readGraph(filename)` ends in `std::abort()` after
printing its FATAL_ERROR message; an abort inside `readGraphForWriteFormat` is how the
process ends (`main` does not turn it into a return value); so the program terminates
abnormally with that message and not with exit status 1. -/
theorem main_aborts_on_unopenable_infile {SS σ NodeR EdgeR : Type} (env : MainEnv SS)
    (w : World σ NodeR EdgeR) (opts : List GetoptResult) (vars : MainVars SS)
    (hloop : mainLoop env opts (MainVars.initial env) = Except.ok vars)
    (hin : vars.infile ≠ "") (hopen : w.openFile vars.infile = none) :
    SimpleReader.readGraphFile w.openFile (w.can_read vars.outformat vars.informat)
        (w.reader vars.informat) (fun x => x) (fun x => x) vars.infile =
      (Except.error (couldNotOpenMessage vars.infile) :
        Except String (GraphInData NodeR EdgeR)) ∧
    (∀ (rg : ReadCall → Except String Unit) (msg : String),
      rg { outformat := vars.outformat, informat := vars.informat, infile := vars.infile,
           f := { outformat := vars.outformat, outfile := vars.outfile,
                  nr_of_threads := vars.nr_of_threads } } = Except.error msg →
      (main env rg opts).termination = Termination.aborted msg) ∧
    (main env (readGraphForWriteFormat w) opts).termination =
      Termination.aborted (couldNotOpenMessage vars.infile) ∧
    (main env (readGraphForWriteFormat w) opts).termination ≠ Termination.returned 1 := by
  have h1 : SimpleReader.readGraphFile w.openFile (w.can_read vars.outformat vars.informat)
        (w.reader vars.informat) (fun x => x) (fun x => x) vars.infile =
      (Except.error (couldNotOpenMessage vars.infile) :
        Except String (GraphInData NodeR EdgeR)) := by
    simp only [SimpleReader.readGraphFile, hopen]
  have h2 : ∀ (rg : ReadCall → Except String Unit) (msg : String),
      rg { outformat := vars.outformat, informat := vars.informat, infile := vars.infile,
           f := { outformat := vars.outformat, outfile := vars.outfile,
                  nr_of_threads := vars.nr_of_threads } } = Except.error msg →
      (main env rg opts).termination = Termination.aborted msg := by
    intro rg msg hrg
    rw [main_of_loop_ok env rg opts vars hloop, if_neg hin, hrg]
  have h3 : (main env (readGraphForWriteFormat w) opts).termination =
      Termination.aborted (couldNotOpenMessage vars.infile) := by
    apply h2
    simp only [readGraphForWriteFormat, h1]
  refine ⟨h1, h2, h3, ?_⟩
  rw [h3]
  intro h
  cases h

/-- C8, witness: `-i missing.graph` in a world where no file opens. -/
theorem main_aborts_on_unopenable_infile_witness :
    mainLoop exampleEnv [{ iarg := 'i', optarg := some "missing.graph" }]
        (MainVars.initial exampleEnv) =
      Except.ok { infile := "missing.graph", informat := FileFormat.FMI,
                  outfile := "ch_out.graph", outformat := FileFormat.FMI_CH,
                  nr_of_threads := 1, ss := () } ∧
    "missing.graph" ≠ "" ∧
    exampleWorld.openFile "missing.graph" = none ∧
    (main exampleEnv (readGraphForWriteFormat exampleWorld)
        [{ iarg := 'i', optarg := some "missing.graph" }]).termination =
      Termination.aborted (couldNotOpenMessage "missing.graph") :=
  ⟨rfl, by decide, rfl,
    (main_aborts_on_unopenable_infile exampleEnv exampleWorld
      [{ iarg := 'i', optarg := some "missing.graph" }]
      { infile := "missing.graph", informat := FileFormat.FMI, outfile := "ch_out.graph",
        outformat := FileFormat.FMI_CH, nr_of_threads := 1, ss := () }
      rfl (by decide) rfl).2.2.1⟩

/-- C8, counterexample: with `-i missing.graph` and a file that cannot be opened the
process ends in `std::abort()`, not with exit status 1. -/
theorem main_unopenable_infile_not_exit_one :
    exampleWorld.openFile "missing.graph" = none ∧
    (∃ msg, (main exampleEnv (readGraphForWriteFormat exampleWorld)
        [{ iarg := 'i', optarg := some "missing.graph" }]).termination =
      Termination.aborted msg) ∧
    (main exampleEnv (readGraphForWriteFormat exampleWorld)
        [{ iarg := 'i', optarg := some "missing.graph" }]).termination ≠
      Termination.returned 1 := by
  have h : (main exampleEnv (readGraphForWriteFormat exampleWorld)
        [{ iarg := 'i', optarg := some "missing.graph" }]).termination =
      Termination.aborted (couldNotOpenMessage "missing.graph") := by
    have hl : mainLoop exampleEnv [{ iarg := 'i', optarg := some "missing.graph" }]
        (MainVars.initial exampleEnv) =
      Except.ok { infile := "missing.graph", informat := FileFormat.FMI,
                  outfile := "ch_out.graph", outformat := FileFormat.FMI_CH,
                  nr_of_threads := 1, ss := () } := rfl
    rw [main_of_loop_ok _ _ _ _ hl, if_neg (by decide)]
    rfl
  refine ⟨rfl, ⟨_, h⟩, ?_⟩
  rw [h]
  intro h2
  cases h2

/-! ## The theorems at concrete inputs -/

/-- C1, witness: node 1 of `exampleData` (one out-edge, three in-edges). -/
theorem init_nodeEdges_sound_witness :
    exampleData.nodes.length + 1 < UINT_MOD ∧
    exampleData.edges.length < UINT_MOD ∧
    (∀ e ∈ exampleData.edges,
      e.src < exampleData.nodes.length ∧ e.tgt < exampleData.nodes.length) ∧
    1 < exampleData.nodes.length ∧
    (Graph.nodeEdges exampleGraph 1 EdgeType.OUT =
        exampleGraph._out_edges.filter (fun e => decide (e.src = 1)) ∧
      (Graph.nodeEdges exampleGraph 1 EdgeType.OUT).Perm
        (exampleData.edges.filter (fun e => decide (e.src = 1))) ∧
      Graph.nodeEdges exampleGraph 1 EdgeType.IN =
        exampleGraph._in_edges.filter (fun e => decide (e.tgt = 1)) ∧
      (Graph.nodeEdges exampleGraph 1 EdgeType.IN).Perm
        (exampleData.edges.filter (fun e => decide (e.tgt = 1)))) :=
  ⟨by decide, by decide, by decide, by decide,
    Graph.init_nodeEdges_sound insertionStdSort (Graph.empty Unit) exampleData
      (by decide) (by decide) (by decide) 1 (by decide)⟩

/-- C2, witness: the four edges of `exampleData` carry the ids 0, 1, 2, 3. -/
theorem init_id_bijection_witness :
    exampleData.edges.length < UINT_MOD ∧
    (exampleData.edges.map Edge.id).Nodup ∧
    (∀ e ∈ exampleData.edges, e.id < exampleData.edges.length) ∧
    (exampleGraph._id_to_index.length = exampleData.edges.length ∧
      (∀ i id, i < exampleData.edges.length → id < exampleData.edges.length →
        (exampleGraph._id_to_index.getD id 0 = i ↔
          exampleGraph._out_edges[i]?.map Edge.id = some id)) ∧
      (∀ e ∈ exampleGraph._out_edges, Graph.getEdge exampleGraph e.id = some e)) :=
  ⟨by decide, by decide, by decide,
    Graph.init_id_bijection insertionStdSort (Graph.empty Unit) exampleData
      (by decide) (by decide) (by decide)⟩

set_option maxRecDepth 1000000 in
/-- C4, counterexample: `tiedData` has seventeen parallel edges `0 → 1` of weight 1.
With the `std::sort` of libstdc++ (whose own result is used on this input, the guard of
`libstdcxxStdSort` being satisfied) `init` leaves them in the id order
8, 16, 15, ..., 9, 0, 7, ..., 1, and a second `update()` reorders them to
9, 1, 2, ..., 7, 0, 8, 10, ..., 16: `_out_edges`, `_in_edges` and `_id_to_index` all
change. -/
theorem update_reorders_tied_edges :
    libstdcxxStdSort.sort EdgeSortSrc tiedData.edges =
      libstdcxx.sort EdgeSortSrc tiedData.edges ∧
    libstdcxxStdSort.sort EdgeSortSrc tiedGraph._out_edges =
      libstdcxx.sort EdgeSortSrc tiedGraph._out_edges ∧
    libstdcxxStdSort.sort EdgeSortTgt tiedData.edges =
      libstdcxx.sort EdgeSortTgt tiedData.edges ∧
    libstdcxxStdSort.sort EdgeSortTgt tiedGraph._in_edges =
      libstdcxx.sort EdgeSortTgt tiedGraph._in_edges ∧
    tiedGraph._out_edges.map Edge.id =
      [8, 16, 15, 14, 13, 12, 11, 10, 9, 0, 7, 6, 5, 4, 3, 2, 1] ∧
    (Graph.update libstdcxxStdSort tiedGraph)._out_edges.map Edge.id =
      [9, 1, 2, 3, 4, 5, 6, 7, 0, 8, 10, 11, 12, 13, 14, 15, 16] ∧
    (Graph.update libstdcxxStdSort tiedGraph)._out_edges ≠ tiedGraph._out_edges ∧
    (Graph.update libstdcxxStdSort tiedGraph)._in_edges ≠ tiedGraph._in_edges ∧
    (Graph.update libstdcxxStdSort tiedGraph)._id_to_index ≠ tiedGraph._id_to_index := by
  decide

/-- C4, witness: `exampleDataNoTies`, sorted with the libstdc++ sort. -/
theorem update_after_init_witness :
    (∀ a ∈ exampleDataNoTies.edges, ∀ b ∈ exampleDataNoTies.edges,
      a.src = b.src → a.tgt = b.tgt → a.weight = b.weight → a = b) ∧
    Graph.update libstdcxxStdSort exampleGraphNoTies = exampleGraphNoTies :=
  ⟨by decide,
    (Graph.update_after_init libstdcxxStdSort (Graph.empty Unit) exampleDataNoTies).2.2.2.2.2.2
      (by decide)⟩

/-- C5, witness: `exampleData`. -/
theorem init_offsets_shape_witness :
    exampleData.nodes.length + 1 < UINT_MOD ∧
    exampleData.edges.length < UINT_MOD ∧
    (∀ e ∈ exampleData.edges,
      e.src < exampleData.nodes.length ∧ e.tgt < exampleData.nodes.length) ∧
    (exampleGraph = Graph.initIdToIndex (Graph.initOffsets
        (Graph.initSorted insertionStdSort (Graph.empty Unit) exampleData)) ∧
      exampleGraph._out_offsets.length = exampleData.nodes.length + 1 ∧
      exampleGraph._in_offsets.length = exampleData.nodes.length + 1 ∧
      exampleGraph._out_offsets.getD 0 0 = 0 ∧
      exampleGraph._in_offsets.getD 0 0 = 0 ∧
      exampleGraph._out_offsets.Pairwise (fun a b => a ≤ b) ∧
      exampleGraph._in_offsets.Pairwise (fun a b => a ≤ b) ∧
      exampleGraph._out_offsets.getD exampleData.nodes.length 0 =
        exampleGraph._out_edges.length ∧
      exampleGraph._in_offsets.getD exampleData.nodes.length 0 =
        exampleGraph._in_edges.length ∧
      Graph.offsetsAssertions
        (Graph.initSorted insertionStdSort (Graph.empty Unit) exampleData) = true) :=
  ⟨by decide, by decide, by decide,
    Graph.init_offsets_shape insertionStdSort (Graph.empty Unit) exampleData
      (by decide) (by decide) (by decide)⟩

/-- C10, witness: `exampleData`. -/
theorem init_degree_counts_witness :
    exampleData.nodes.length + 1 < UINT_MOD ∧
    exampleData.edges.length < UINT_MOD ∧
    (∀ e ∈ exampleData.edges,
      e.src < exampleData.nodes.length ∧ e.tgt < exampleData.nodes.length) ∧
    (∀ v, v < exampleData.nodes.length →
      exampleData.edges.countP (fun e => decide (e.src = v)) +
        exampleData.edges.countP (fun e => decide (e.tgt = v)) < UINT_MOD) ∧
    ((∀ v, v < exampleData.nodes.length →
      exampleGraph._out_offsets.getD v 0 ≤ exampleGraph._out_offsets.getD (v + 1) 0 ∧
      exampleGraph._in_offsets.getD v 0 ≤ exampleGraph._in_offsets.getD (v + 1) 0 ∧
      Graph.getNrOfEdgesOf exampleGraph v EdgeType.OUT =
        exampleData.edges.countP (fun e => decide (e.src = v)) ∧
      Graph.getNrOfEdgesOf exampleGraph v EdgeType.IN =
        exampleData.edges.countP (fun e => decide (e.tgt = v)) ∧
      Graph.getNrOfEdgesOf exampleGraph v EdgeType.IN =
        exampleGraph._in_edges.countP (fun e => decide (e.tgt = v)) ∧
      Graph.getNrOfEdgesAt exampleGraph v =
        exampleData.edges.countP (fun e => decide (e.src = v)) +
          exampleData.edges.countP (fun e => decide (e.tgt = v))) ∧
    ((List.range exampleData.nodes.length).map (Graph.getNrOfEdgesAt exampleGraph)).sum =
      2 * Graph.getNrOfEdges exampleGraph) :=
  ⟨by decide, by decide, by decide, by decide,
    Graph.init_degree_counts insertionStdSort (Graph.empty Unit) exampleData
      (by decide) (by decide) (by decide) (by decide)⟩

/-- C7, witness: `exampleOutData` written to the recording writer. -/
theorem writeCHGraph_contract_witness :
    exampleOutData.nodes.length < UINT_MOD ∧
    exampleOutData.edges.length < UINT_MOD ∧
    exampleOutData.nodes.length ≤ exampleOutData.node_levels.length ∧
    SimpleWriter.writeCHGraph (logWriter (CHNode String) String) (fun x => x) (fun x => x)
        exampleOutData [] =
      [WriterCall.writeHeader 2 1,
       WriterCall.writeNode { node := "a", lvl := 4 } 0,
       WriterCall.writeNode { node := "b", lvl := 9 } 1,
       WriterCall.writeEdge "e" 0] :=
  ⟨by decide, by decide, by decide,
    (writeCHGraph_contract (logWriter (CHNode String) String) (fun x => x) (fun x => x)
      exampleOutData [] (by decide) (by decide) (by decide)).2⟩

/-- C3, at a concrete input: `exampleData` sorted with the stable sort. -/
theorem init_sorted_and_same_edges_witness :
    exampleGraph._out_edges.Pairwise (fun a b => outKey a ≤ outKey b) ∧
    exampleGraph._in_edges.Pairwise (fun a b => inKey a ≤ inKey b) ∧
    exampleGraph._out_edges.Perm exampleData.edges ∧
    exampleGraph._in_edges.Perm exampleData.edges ∧
    exampleGraph._out_edges.Perm exampleGraph._in_edges :=
  Graph.init_sorted_and_same_edges insertionStdSort (Graph.empty Unit) exampleData

/-- C6, at a concrete input: `exampleReader` started on the numbers 7, 8, 9. -/
theorem readGraph_contract_witness :
    ∃ (ns : List Nat) (es : List Nat),
      ns.length = 2 ∧
      es.length = 1 ∧
      (SimpleReader.readGraph exampleReader.logged (fun x => x) (fun x => x)
          ([7, 8, 9], [])).2.2 =
        [ReaderCall.readHeader 2 1] ++
          ns.enum.map (fun x => ReaderCall.readNode x.1 x.2) ++
          es.enum.map (fun x => ReaderCall.readEdge x.1 x.2) ∧
      (SimpleReader.readGraph exampleReader (fun x => x) (fun x => x) [7, 8, 9]).1.nodes =
        ns.map (fun x => x) ∧
      (SimpleReader.readGraph exampleReader (fun x => x) (fun x => x) [7, 8, 9]).1.edges =
        es.map (fun x => x) ∧
      (SimpleReader.readGraph exampleReader.logged (fun x => x) (fun x => x)
          ([7, 8, 9], [])).1 =
        (SimpleReader.readGraph exampleReader (fun x => x) (fun x => x) [7, 8, 9]).1 ∧
      (SimpleReader.readGraph exampleReader.logged (fun x => x) (fun x => x)
          ([7, 8, 9], [])).2.1 =
        (SimpleReader.readGraph exampleReader (fun x => x) (fun x => x) [7, 8, 9]).2 :=
  readGraph_contract exampleReader (fun x => x) (fun x => x) [7, 8, 9]

end chc
